import Mathlib

/-!
Shallow embedding of `openfisca_core/datatables.py` (class `DataTable`).

Values stored in columns are modelled as integers (`Int`); numpy scalar
dtypes are modelled by `Dtype` together with the cast `castVal` performed
by `astype` / typed array construction.  Arrays are Lean lists, numpy fancy
indexing `a[idxs]` is `gather`, fancy assignment `a[idxs] = vals` is
`scatter`.  Fallible Python code (KeyError, AttributeError, explicit
`raise`) is modelled with `Except String`.
-/

namespace OFC

/-- numpy scalar dtypes as used by the columns (`col._dtype`). -/
inductive Dtype where
  | bool
  | int
  | float
deriving DecidableEq, Repr

/-- `np.array(values, dtype = d)` / `astype(d)` applied to one scalar.
Integer and float casts keep the (integer-modelled) value; a bool cast
collapses any non-zero value to 1, as numpy does. -/
def castVal : Dtype → Int → Int
  | .bool, x => if x = 0 then 0 else 1
  | .int, x => x
  | .float, x => x

/-- Column metadata from the column registry (`column_by_name` entries):
owner entity (`col.entity`), default (`col._default`), scalar type
(`col._dtype`) and, for `qui<E>` columns, the role enumeration
(`col.enum`, modelled by its list of role codes). -/
structure Column where
  entity : String
  dflt : Int
  dtype : Dtype
  enum : Option (List Int)

/-- One role entry of an entity index: `{'idxIndi': ..., 'idxUnit': ...}`. -/
structure RoleIdx where
  idxIndi : List Nat
  idxUnit : List Nat
deriving DecidableEq, Repr

/-- The per-entity part of `self.index`: `'nb'`, the integer role keys and
the string-keyed cross-entity arrays (`self.index[e][super_entity]`). -/
structure EntIdx where
  nb : Nat
  role : Int → Option RoleIdx
  cross : String → Option (List Nat)

/-- `self.index`: entity name to its index entry. -/
def Index : Type := String → Option EntIdx

/-- The whole `DataTable` state.  `table` is the flat layout
(`self.table`, column name to column), `table3` the split layout
(`self.table3`, entity then column name). -/
structure DataTable where
  numTable : Nat
  nrows : Nat
  registry : String → Option Column
  table : String → Option (List Int)
  table3 : String → String → Option (List Int)
  index : Index

/-- Result of `get_value`: either an array, a role-keyed dict of arrays, or
Python's implicit `None` (returned when `num_table` is neither 1 nor 3). -/
inductive GetResult where
  | arr : List Int → GetResult
  | rmap : List (Int × List Int) → GetResult
  | pynone : GetResult
deriving DecidableEq, Repr

/-! ## Array primitives (numpy operations on 1-d arrays) -/

/-- numpy fancy read `var[idxs]` (all claim-relevant reads are in range;
out-of-range positions yield 0 here). -/
def gather (var : List Int) (idxs : List Nat) : List Int :=
  idxs.map (fun i => var.getD i 0)

/-- Same for an integer-valued index array (`self.index['ind'][e][head]`). -/
def gatherN (var : List Nat) (idxs : List Nat) : List Nat :=
  idxs.map (fun i => var.getD i 0)

/-- numpy fancy assignment `t[idxs] = vals` (pairwise, later pairs win). -/
def scatter (t : List Int) (idxs : List Nat) (vals : List Int) : List Int :=
  (idxs.zip vals).foldl (fun acc p => acc.set p.1 p.2) t

/-- `t[is.map u] = is.map f` written with the source rows explicit. -/
def scatterVia (t : List Int) (is : List Nat) (u : Nat → Nat) (f : Nat → Int) : List Int :=
  is.foldl (fun acc i => acc.set (u i) (f i)) t

/-- `t[idxs] = idxs.map g`: assignment whose value depends only on the
target position. -/
def scatterMap (t : List Int) (idxs : List Nat) (g : Nat → Int) : List Int :=
  scatterVia t idxs id g

/-- Elementwise `+` of two equal-length arrays. -/
def addVec (a b : List Int) : List Int := a.zipWith (· + ·) b

/-- `sumout = 0; for val in arrays: sumout += val` — numpy starts from the
scalar 0, so an empty family yields the scalar 0 (modelled as `[]`). -/
def sumArrays : List (List Int) → List Int
  | [] => []
  | a :: rest => rest.foldl addVec a

/-- Insert into a sorted duplicate-free list. -/
def insSorted [LinearOrder α] (v : α) : List α → List α
  | [] => [v]
  | x :: xs => if v < x then v :: x :: xs else if v = x then x :: xs else x :: insSorted v xs

/-- `np.unique`: sorted list of the distinct values. -/
def uniqueSorted [LinearOrder α] (l : List α) : List α :=
  l.foldr insSorted []

/-- `np.searchsorted(l, v)` for a sorted `l`: number of entries `< v`. -/
def ssorted (l : List Int) (v : Int) : Nat :=
  l.countP (fun x => decide (x < v))

/-- Python-2 dict built from a keyed list: duplicate keys collapse to one
entry (same key always carries the same array here, so keeping the first
occurrence is faithful). -/
def dedupKeys (l : List (Int × List Int)) : List (Int × List Int) :=
  l.foldl (fun acc p => if acc.any (fun q => q.1 == p.1) then acc else acc ++ [p]) []

/-! ## Index builder (`DataTable.gen_index`) -/

/-- `np.sort(np.squeeze(np.argwhere(qui == r)))` — the individual rows
playing role `r`, in increasing order.  (The squeeze/sort pair only
behaves this way when the number of matches differs from 1, see
`genEntStep`.) -/
def roleMembers (quis : List Int) (r : Int) : List Nat :=
  (List.range quis.length).filter (fun i => quis.getD i 0 == r)

/-- The body of the role loop of `gen_index` for one entity, given the
identifier list `idxlist` actually used: `nb`, and per enumerated role the
pair `idxIndi` / `idxUnit = np.searchsorted(idxlist, idx[idxIndi])`. -/
def mkEntIdxWith (idxlist : List Int) (ids quis : List Int) (enumL : List Int) : EntIdx :=
  { nb := idxlist.length
    role := fun r =>
      if r ∈ enumL then
        some ⟨roleMembers quis r, (roleMembers quis r).map (fun i => ssorted idxlist (ids.getD i 0))⟩
      else none
    cross := fun _ => none }

/-- Flat-layout entity index: the identifier list is `np.unique(id)`. -/
def mkEntIdx (ids quis : List Int) (enumL : List Int) : EntIdx :=
  mkEntIdxWith (uniqueSorted ids) ids quis enumL

/-- `entity_row_of`: the entity row of individual `i`, i.e.
`np.searchsorted(np.unique(ids), ids[i])`. -/
def unitOf (ids : List Int) (i : Nat) : Nat :=
  ssorted (uniqueSorted ids) (ids.getD i 0)

/-- The `'ind'` entry installed at the top of `gen_index`: identity join of
size `nrows`. -/
def indBase (n : Nat) : EntIdx :=
  { nb := n
    role := fun r => if r = 0 then some ⟨List.range n, List.range n⟩ else none
    cross := fun _ => none }

/-- Update one entity entry of an index. -/
def setEnt (idx : Index) (e : String) (v : EntIdx) : Index :=
  fun w => if w = e then some v else idx w

/-- Inputs `gen_index` reads for one entity: the `id<E>` / `qui<E>` columns
of the individual table (absent columns raise), the role enumeration of
the registry column `qui<E>`, and — split layout — the identifier column
of the entity's own table (`self.table3[E]['id' + E]`). -/
structure EntityInput where
  ids : Option (List Int)
  quis : Option (List Int)
  quiEnum : Option (List Int)
  ownIds : List Int

/-- One iteration of the entity loop of `gen_index`.  In the split layout a
derived identifier list longer than the entity's own table is replaced by
the latter (the reconciliation is logged, not fatal), and
`self.index['ind'][e]` is set to `np.searchsorted(idxlist, idx)`.  A role
held by exactly one individual in the whole table makes
`np.squeeze(np.argwhere(...))` a 0-d array, on which `np.sort` raises. -/
def genEntStep (nt : Nat) (inp : EntityInput) (e : String) (idx : Index) : Except String Index :=
  match inp.quiEnum with
  | none => .error "AttributeError: NoneType object has no attribute enum"
  | some enumL =>
    match inp.ids with
    | none => .error ("AttributeError: DataFrame object has no attribute id" ++ e)
    | some ids =>
      match inp.quis with
      | none => .error ("AttributeError: DataFrame object has no attribute qui" ++ e)
      | some quis =>
        let idxlist0 := uniqueSorted ids
        let idxlist :=
          if nt = 3 ∧ idxlist0.length > inp.ownIds.length then inp.ownIds else idxlist0
        if enumL.any (fun r => (roleMembers quis r).length == 1) then
          .error "AxisError: axis -1 is out of bounds for array of dimension 0"
        else
          let idx1 := setEnt idx e (mkEntIdxWith idxlist ids quis enumL)
          if nt = 3 then
            match idx1 "ind" with
            | some ii =>
              .ok (setEnt idx1 "ind"
                { ii with cross := fun w =>
                    if w = e then some (ids.map (fun v => ssorted idxlist v)) else ii.cross w })
            | none => .ok idx1
          else .ok idx1

/-- The final loop of `gen_index` (split layout only): for every ordered
pair of distinct composite entities,
`self.index[e][s] = self.index['ind'][s][head]` with `head` the role-0
individual rows of `e`. -/
def genCrossE (ents : List String) (idx0 : Index) : Except String Index :=
  ents.foldlM (fun acc e =>
    ents.foldlM (fun acc2 s =>
      if s ≠ e then
        match acc2 e with
        | none => .error "KeyError"
        | some ee =>
          match ee.role 0 with
          | none => .error "KeyError"
          | some r0 =>
            match acc2 "ind" with
            | none => .error "KeyError"
            | some ii =>
              match ii.cross s with
              | none => .error "KeyError"
              | some cs =>
                .ok (setEnt acc2 e
                  { ee with cross := fun w => if w = s then some (gatherN cs r0.idxIndi) else ee.cross w })
      else .ok acc2) acc) idx0

/-- `DataTable.gen_index(entities)`. -/
def genIndexE (nt n : Nat) (ents : List String) (inp : String → EntityInput) :
    Except String Index :=
  let idx0 : Index := fun w => if w = "ind" then some (indBase n) else none
  match ents.foldlM (fun acc e => genEntStep nt (inp e) e acc) idx0 with
  | .error s => .error s
  | .ok idx1 => if nt = 3 then genCrossE ents idx1 else .ok idx1

/-! ## Value resolver, flat layout (`DataTable._get_value1`) -/

/-- `DataTable._get_value1(varname, entity, opt, sum_)`.  The hardcoded
`'ppe_coef'` branch re-reads the variable at its owner entity
(`self.get_value(varname, ent)`, inlined here: for a composite owner this
is the role-0 composite read below; for a leaf owner the Python call
recurses forever) and then overwrites the member rows role by role. -/
def getValue1 (dt : DataTable) (varname : String) (entity? : Option String)
    (opt? : Option (List Int)) (sum0 : Bool) : Except String GetResult :=
  match dt.registry varname with
  | none => .error "AttributeError: NoneType column"
  | some col =>
    match dt.table varname with
    | none => .error "KeyError"
    | some raw =>
      let var := raw.map (castVal col.dtype)
      let dflt := col.dflt
      let ent := col.entity
      let entity := entity?.getD "ind"
      if entity = "ind" then
        if varname ≠ "ppe_coef" then .ok (.arr var)
        else if ent = "ind" then .error "RuntimeError: maximum recursion depth exceeded"
        else
          match dt.index ent with
          | none => .error "KeyError"
          | some eidx =>
            match eidx.role 0 with
            | none => .error "KeyError"
            | some r0 =>
              let value := scatter (List.replicate eidx.nb dflt) r0.idxUnit (gather var r0.idxIndi)
              match dt.registry ("qui" ++ ent) with
              | none => .error "AttributeError: NoneType column"
              | some qcol =>
                match qcol.enum with
                | none => .error "AttributeError: NoneType object has no attribute enum"
                | some enumL =>
                  match enumL.foldlM (fun acc r =>
                      match eidx.role r with
                      | none => Except.error "KeyError"
                      | some ridx =>
                        Except.ok (scatter acc ridx.idxIndi (gather value ridx.idxUnit))) var with
                  | .error s => .error s
                  | .ok bc => .ok (.arr bc)
      else
        match dt.index entity with
        | none => .error "KeyError"
        | some eidx =>
          let nb := eidx.nb
          match opt? with
          | none =>
            match eidx.role 0 with
            | none => .error "KeyError"
            | some r0 =>
              .ok (.arr (scatter (List.replicate nb dflt) r0.idxUnit (gather var r0.idxIndi)))
          | some persons =>
            match persons.mapM (fun p =>
                match eidx.role p with
                | none => Except.error "KeyError"
                | some ridx =>
                  Except.ok (p, scatter (List.replicate nb dflt) ridx.idxUnit (gather var ridx.idxIndi))) with
            | .error s => .error s
            | .ok temps =>
              let out := dedupKeys temps
              if sum0 then .ok (.arr (sumArrays (out.map (fun p => p.2))))
              else if persons.length = 1 then .ok (.arr (out.headD (0, [])).2)
              else .ok (.rmap out)

/-! ## Value resolver, split layout (`DataTable._get_value3`) -/

/-- Per-group sums of `tab.groupby(idx_to).aggregate(np.sum)`: the sum of
the owner rows mapped to target row `t`. -/
def groupSum (idxTo : List Nat) (var : List Int) (t : Nat) : Int :=
  (((List.range idxTo.length).filter (fun j => idxTo.getD j 0 == t)).map
    (fun j => var.getD j 0)).sum

/-- `DataTable._get_value3(varname, entity, opt, sum_)`.  The case number
and the `opt` / `sum_` rewrites follow the source line by line; boolean
columns are already collapsed by `castVal`, so the explicit
bool-coercion fallback of the groupby branch is the identity here. -/
def getValue3 (dt : DataTable) (varname : String) (entity? : Option String)
    (opt? : Option (List Int)) (sum0 : Bool) : Except String GetResult :=
  match dt.registry varname with
  | none => .error "AttributeError: NoneType column"
  | some col =>
    let dflt := col.dflt
    let dent := col.entity
    match dt.table3 dent varname with
    | none => .error "KeyError"
    | some raw =>
      let var := raw.map (castVal col.dtype)
      let case0 : Nat :=
        if entity? = none ∨ entity? = some dent then 1
        else if entity? = some "ind" ∨ dent = "men" then 2
        else if entity? = some "men" ∨ dent = "ind" then 3
        else 0
      let case1 := if case0 = 0 ∧ opt? = none then 2 else case0
      match (if opt?.isSome ∧ case1 = 1 then
               (if varname.take 2 ≠ "id" then
                  Except.error ("opt does not mean anything here " ++ varname)
                else Except.ok (none : Option (List Int)))
             else Except.ok opt?) with
      | .error s => .error s
      | .ok opt1 =>
        if opt1.isSome ∧ case1 = 2 ∧ entity? ≠ some "ind" then
          .error ("opt does not mean anything here : " ++ varname)
        else
          let sum1 := if sum0 ∧ case1 ≠ 3 then false else sum0
          let sum2 := if case1 = 3 ∧ dent ≠ "ind" ∧ opt1 = none then true else sum1
          let opt2 := if case1 = 3 ∧ opt1 = none then some [(0 : Int)] else opt1
          let opt3 := if varname = "wprm" ∧ entity? = some "ind" then
              some [(0 : Int), 1, 2, 3, 4, 5, 6, 7, 8, 9] else opt2
          if case1 = 1 then
            match dt.index dent with
            | none => .error "KeyError"
            | some eidx =>
              match eidx.role 0 with
              | none => .error "KeyError"
              | some r0 => .ok (.arr (gather var r0.idxUnit))
          else if case1 = 2 then
            let ent2 := entity?.getD "ind"
            match dt.index ent2 with
            | none => .error "KeyError"
            | some eidx =>
              let nb := eidx.nb
              let temp0 := List.replicate nb dflt
              match opt3 with
              | none =>
                if ent2 ≠ "ind" then
                  match dt.index dent with
                  | none => .error "KeyError"
                  | some didx =>
                    match didx.cross ent2 with
                    | none => .error "KeyError"
                    | some crossTo =>
                      let temp1 := scatter temp0 crossTo var
                      if varname = "so" ∨ varname = "zone_apl" ∨ varname = "loyer" ∨
                          varname = "wprm" then
                        match eidx.cross dent with
                        | none => .error "KeyError"
                        | some idxFrom => .ok (.arr (gather var idxFrom))
                      else .ok (.arr temp1)
                else
                  match dt.index dent with
                  | none => .error "KeyError"
                  | some didx =>
                    match didx.role 0 with
                    | none => .error "KeyError"
                    | some head => .ok (.arr (scatter temp0 head.idxIndi var))
              | some persons =>
                match dt.index dent with
                | none => .error "KeyError"
                | some didx =>
                  match persons.foldlM (fun acc p =>
                      match didx.role p with
                      | none => Except.error "KeyError"
                      | some ridx =>
                        Except.ok (scatter acc ridx.idxIndi (gather var ridx.idxUnit))) temp0 with
                  | .error s => .error s
                  | .ok temp1 => .ok (.arr temp1)
          else
            -- case 3
            match dt.index (entity?.getD "ind") with
            | none => .error "KeyError"
            | some eidx =>
              let nb := eidx.nb
              if dent = "ind" then
                match opt3 with
                | none => .error "TypeError: NoneType object is not iterable"
                | some persons =>
                  match persons.mapM (fun p =>
                      match eidx.role p with
                      | none => Except.error "KeyError"
                      | some ridx =>
                        Except.ok (p,
                          scatter (if sum2 then List.replicate nb 0 else List.replicate nb dflt)
                            ridx.idxUnit (gather var ridx.idxIndi))) with
                  | .error s => .error s
                  | .ok temps =>
                    let out := dedupKeys temps
                    if sum2 then .ok (.arr (sumArrays (out.map (fun p => p.2))))
                    else if persons.length = 1 then .ok (.arr (out.headD (0, [])).2)
                    else .ok (.rmap out)
              else
                if sum2 = false then
                  .error "Cannot do anything but a sum from intermediate entity to the biggest one"
                else
                  match dt.index dent with
                  | none => .error "KeyError"
                  | some didx =>
                    match didx.cross (entity?.getD "ind") with
                    | none => .error "KeyError"
                    | some idxTo =>
                      .ok (.arr (scatterMap (List.replicate nb dflt) (uniqueSorted idxTo)
                        (groupSum idxTo var)))

/-- `DataTable.get_value`: dispatch on `num_table`; the flat branch wraps
any exception in a new message, any other `num_table` returns `None`. -/
def getValue (dt : DataTable) (varname : String) (entity? : Option String)
    (opt? : Option (List Int)) (sum0 : Bool) : Except String GetResult :=
  if dt.numTable = 1 then
    match getValue1 dt varname entity? opt? sum0 with
    | .error s => .error ("Problem error when getting variable " ++ varname ++ " : " ++ s)
    | .ok r => .ok r
  else if dt.numTable = 3 then getValue3 dt varname entity? opt? sum0
  else .ok .pynone

/-! ## Value writer (`DataTable.set_value`) and `DataTable.inflate` -/

/-- `DataTable.set_value(varname, value, entity, opt)`.  A missing `opt`
selects role 0.  In the flat layout the stored values are
`Series(value[idxUnit], dtype)` written at the rows `idxIndi`; in the
split layout `value` is written as given at `idxIndi` (individuals) or
`idxUnit` (entity rows). -/
def setValue (dt : DataTable) (varname : String) (value : List Int)
    (entity? : Option String) (opt? : Option Int) : Except String DataTable :=
  let entity := entity?.getD "ind"
  match dt.index entity with
  | none => .error "KeyError"
  | some eidx =>
    match (match opt? with | none => eidx.role 0 | some o => eidx.role o) with
    | none => .error "KeyError"
    | some ridx =>
      match dt.registry varname with
      | none => .error ("Error when getting column " ++ varname)
      | some col =>
        if dt.numTable = 1 then
          match dt.table varname with
          | none => .error "KeyError"
          | some oldcol =>
            .ok { dt with table := fun w =>
                    if w = varname then
                      some (scatter oldcol ridx.idxIndi
                        ((gather value ridx.idxUnit).map (castVal col.dtype)))
                    else dt.table w }
        else
          match dt.table3 entity varname with
          | none => .error "KeyError"
          | some oldcol =>
            .ok { dt with table3 := fun e w =>
                    if e = entity ∧ w = varname then
                      some (scatter oldcol
                        (if entity = "ind" then ridx.idxIndi else ridx.idxUnit) value)
                    else dt.table3 e w }

/-- `DataTable.inflate(varname, inflator)`:
`self.table[varname] = inflator * self.table[varname]`. -/
def inflate (dt : DataTable) (varname : String) (inflator : Int) : DataTable :=
  { dt with table := fun w =>
      if w = varname then (dt.table varname).map (fun l => l.map (fun x => inflator * x))
      else dt.table w }

/-! ## Construction (`DataTable.populate_from_survey_data`, flat layout) -/

/-- Registry lookup over the ordered column list. -/
def colLookup (cols : List (String × Column)) (w : String) : Option Column :=
  (cols.find? (fun p => p.1 == w)).map (fun p => p.2)

/-- The flat table after the populate loop: every registry column is
present, missing input columns are filled with the (cast) default, present
ones are cast to the declared dtype; non-registry columns are dropped. -/
def filledTable (cols : List (String × Column)) (input : String → Option (List Int))
    (n : Nat) : String → Option (List Int) :=
  fun w => (colLookup cols w).map (fun c =>
    match input w with
    | some l => l.map (castVal c.dtype)
    | none => List.replicate n (castVal c.dtype c.dflt))

/-- `missing_col`: names of registry columns absent from the input table. -/
def missingNames (cols : List (String × Column)) (input : String → Option (List Int)) :
    List String :=
  (cols.filter (fun p => (input p.1).isNone)).map (fun p => p.1)

/-- The final check of `populate_from_survey_data`: for every entity of
`ENTITIES_INDEX`, a missing `id<E>` or `qui<E>` input raises. -/
def checkLinking (missing : List String) : List String → Except String Unit
  | [] => .ok ()
  | e :: rest =>
    if ("id" ++ e) ∈ missing then .error ("Survey data needs variable id" ++ e)
    else if ("qui" ++ e) ∈ missing then .error ("Survey data needs variable qui" ++ e)
    else checkLinking missing rest

/-- `DataTable.populate_from_survey_data` for an in-memory flat table:
fill/cast the columns, raise on a missing linking column, then build the
index. -/
def populate1 (cols : List (String × Column)) (input : String → Option (List Int))
    (n : Nat) (entsIdx : List String) : Except String DataTable :=
  let tbl := filledTable cols input n
  match checkLinking (missingNames cols input) entsIdx with
  | .error s => .error s
  | .ok _ =>
    let inp : String → EntityInput := fun e =>
      { ids := tbl ("id" ++ e), quis := tbl ("qui" ++ e)
        quiEnum := (colLookup cols ("qui" ++ e)).bind (fun c => c.enum)
        ownIds := [] }
    match genIndexE 1 n entsIdx inp with
    | .error s => .error s
    | .ok idx =>
      .ok { numTable := 1, nrows := n, registry := colLookup cols, table := tbl
            table3 := fun _ _ => none, index := idx }

/-! ## Derived notions used to state the claims -/

/-- A leaf-owned integer column with default 0. -/
def colLeaf0 : Column := ⟨"ind", 0, Dtype.int, none⟩

/-- The flat table after one column has been replaced (the state
`set_value` / `inflate` leave behind). -/
def updTable (dt : DataTable) (v : String) (c : List Int) : DataTable :=
  { dt with table := fun w => if w = v then some c else dt.table w }

/-- The contribution of role `r` to target row `t` in the role loop of the
aggregating read: the (unique) member value where the row has a member in
that role, otherwise the fill value `init` of the per-role arrays. -/
def roleContrib (ids quis var : List Int) (init : Int) (r : Int) (t : Nat) : Int :=
  match (roleMembers quis r).find? (fun i => unitOf ids i == t) with
  | some i => var.getD i 0
  | none => init

/-! ## Concrete instances used by the witnesses and counterexamples -/

/-- A leaf-owned integer column with the non-zero default 5. -/
def colX : Column := ⟨"ind", 5, Dtype.int, none⟩

/-- Flat table: 2 individuals in 2 one-member households (ids `[1,2]`,
roles `[0,0]`), `x = [10,20]`; role 1 is requested but absent everywhere. -/
def dtC1flat : DataTable :=
  { numTable := 1, nrows := 2
    registry := fun w => if w = "x" then some colX else none
    table := fun w => if w = "x" then some [10, 20] else none
    table3 := fun _ _ => none
    index := fun e =>
      if e = "men" then some (mkEntIdx [1, 2] [0, 0] [0, 1])
      else if e = "ind" then some (indBase 2) else none }

/-- One individual whose registry has a LEAF-owned column that happens to
be called `ppe_coef`: the hardcoded name check then fires on a plain leaf
read. -/
def dtC2ppe : DataTable :=
  { numTable := 1, nrows := 1
    registry := fun w => if w = "ppe_coef" then some colLeaf0 else none
    table := fun w => if w = "ppe_coef" then some [7] else none
    table3 := fun _ _ => none
    index := fun e => if e = "ind" then some (indBase 1) else none }

/-- Two individuals with an ordinary leaf column `y`. -/
def dtC2w : DataTable :=
  { numTable := 1, nrows := 2
    registry := fun w => if w = "y" then some colLeaf0 else none
    table := fun w => if w = "y" then some [7, 8] else none
    table3 := fun _ _ => none
    index := fun e => if e = "ind" then some (indBase 2) else none }

/-- Registry declaring the linking columns of entity `foy`. -/
def colsC3 : List (String × Column) :=
  [("idfoy", ⟨"ind", 0, Dtype.int, none⟩), ("quifoy", ⟨"ind", 0, Dtype.int, some [0, 1]⟩)]

/-- Survey input that carries `quifoy` but lacks `idfoy`. -/
def inputC3 : String → Option (List Int) :=
  fun w => if w = "quifoy" then some [0] else none

/-- Split-layout index input for entity `foy`: 4 individuals deriving 2
distinct identifiers, but a one-row `foy` table (`ownIds = [5]`). -/
def inpC4 : String → EntityInput :=
  fun e => if e = "foy" then ⟨some [1, 1, 2, 2], some [0, 1, 0, 1], some [0, 1], [5]⟩
           else ⟨none, none, none, []⟩

/-- `men` index entry used by C5: 3 households. -/
def meC5 : EntIdx :=
  ⟨3, fun r => if r = 0 then some ⟨[0, 1, 2], [0, 1, 2]⟩ else none, fun _ => none⟩

/-- `foy` index entry used by C5: 3 tax units whose cross-entity map to
`men` is `[0, 0, 1]`. -/
def deC5 : EntIdx :=
  ⟨3, fun _ => none, fun w => if w = "men" then some [0, 0, 1] else none⟩

/-- A `foy`-owned column with default 7. -/
def colYFoy : Column := ⟨"foy", 7, Dtype.int, none⟩

/-- Split layout with an intermediate-entity variable `y = [1,2,3]` on
`foy` and the index entries above. -/
def dtC5 : DataTable :=
  { numTable := 3, nrows := 3
    registry := fun w => if w = "y" then some colYFoy else none
    table := fun _ => none
    table3 := fun e w => if e = "foy" ∧ w = "y" then some [1, 2, 3] else none
    index := fun e => if e = "men" then some meC5 else if e = "foy" then some deC5 else none }

/-- `foy` index entry used by C6: 2 units, role 0 held by individual rows
0 and 2. -/
def eidxC6 : EntIdx :=
  ⟨2, fun r => if r = 0 then some ⟨[0, 2], [0, 1]⟩ else none, fun _ => none⟩

/-- Flat table of 3 individuals with leaf column `z` for C6. -/
def dtC6 : DataTable :=
  { numTable := 1, nrows := 3
    registry := fun w => if w = "z" then some colX else none
    table := fun w => if w = "z" then some [10, 20, 30] else none
    table3 := fun _ _ => none
    index := fun e =>
      if e = "foy" then some eidxC6 else if e = "ind" then some (indBase 3) else none }

/-- Index-builder input of the C7 scenario: household ids `[1,1,2]`,
roles `[0,1,0]` (role 1 is held by exactly ONE individual table-wide). -/
def inpC7 : String → EntityInput :=
  fun e => if e = "men" then ⟨some [1, 1, 2], some [0, 1, 0], some [0, 1], []⟩
           else ⟨none, none, none, []⟩

/-- The C7 scenario DataTable, carrying the index the role loop is
written to produce (`mkEntIdx`). -/
def dtC7 : DataTable :=
  { numTable := 1, nrows := 3
    registry := fun w => if w = "x" then some colLeaf0 else none
    table := fun w => if w = "x" then some [10, 20, 30] else none
    table3 := fun _ _ => none
    index := fun e =>
      if e = "men" then some (mkEntIdx [1, 1, 2] [0, 1, 0] [0, 1])
      else if e = "ind" then some (indBase 3) else none }

/-- Index-builder input for C8: ids `[1,2]`, both individuals role 0. -/
def inpC8 : String → EntityInput :=
  fun e => if e = "foy" then ⟨some [1, 2], some [0, 0], some [0], []⟩
           else ⟨none, none, none, []⟩

/-- The index `gen_index` builds from `inpC8` in the flat layout. -/
def idxC8 : Index :=
  setEnt (fun w => if w = "ind" then some (indBase 2) else none) "foy"
    (mkEntIdxWith (uniqueSorted [1, 2]) [1, 2] [0, 0] [0])

/-- A `foy`-owned column named `ppe_coef` with default 0. -/
def colPpeFoy : Column := ⟨"foy", 0, Dtype.int, none⟩

/-- The `quifoy` registry column carrying the role enumeration `[0,1]`. -/
def colQuiFoy9 : Column := ⟨"ind", 0, Dtype.int, some [0, 1]⟩

/-- Four individuals in two `foy` units (ids `[1,1,2,2]`, roles
`[0,1,0,1]`), with the composite-owned `ppe_coef` column duplicated per
individual and an ordinary leaf column `w`. -/
def dtC9 : DataTable :=
  { numTable := 1, nrows := 4
    registry := fun w =>
      if w = "ppe_coef" then some colPpeFoy
      else if w = "quifoy" then some colQuiFoy9
      else if w = "w" then some colLeaf0 else none
    table := fun w =>
      if w = "ppe_coef" then some [10, 20, 30, 40]
      else if w = "w" then some [7, 7, 7, 7] else none
    table3 := fun _ _ => none
    index := fun e =>
      if e = "foy" then some (mkEntIdx [1, 1, 2, 2] [0, 1, 0, 1] [0, 1])
      else if e = "ind" then some (indBase 4) else none }

/-- The same population in the split layout. -/
def dtC1split : DataTable :=
  { numTable := 3, nrows := 2
    registry := fun w => if w = "x" then some colX else none
    table := fun _ => none
    table3 := fun e w => if e = "ind" ∧ w = "x" then some [10, 20] else none
    index := fun e =>
      if e = "men" then some (mkEntIdx [1, 2] [0, 0] [0, 1])
      else if e = "ind" then some (indBase 2) else none }

/-! ## Helper lemmas about the array primitives -/

theorem getD_set_self (l : List Int) (i : Nat) (v : Int) :
    (l.set i v).getD i 0 = if i < l.length then v else 0 := by
  induction l generalizing i with
  | nil => simp
  | cons a t ih =>
    cases i with
    | zero => simp
    | succ j => simpa [Nat.succ_lt_succ_iff] using ih j

theorem getD_set_ne (l : List Int) (i j : Nat) (v : Int) (h : i ≠ j) :
    (l.set i v).getD j 0 = l.getD j 0 := by
  induction l generalizing i j with
  | nil => simp
  | cons a t ih =>
    cases i with
    | zero =>
      cases j with
      | zero => exact absurd rfl h
      | succ k => simp
    | succ i' =>
      cases j with
      | zero => simp
      | succ k => simpa using ih i' k (by omega)

theorem getD_replicate (n j : Nat) (x : Int) :
    (List.replicate n x).getD j 0 = if j < n then x else 0 := by
  induction n generalizing j with
  | zero => simp
  | succ m ih =>
    cases j with
    | zero => simp [List.replicate]
    | succ k => simpa [List.replicate, Nat.succ_lt_succ_iff] using ih k

theorem length_scatterVia (t : List Int) (is : List Nat) (u : Nat → Nat) (f : Nat → Int) :
    (scatterVia t is u f).length = t.length := by
  induction is generalizing t with
  | nil => rfl
  | cons a is ih => simpa [scatterVia] using (ih (t.set (u a) (f a))).trans (by simp)

theorem scatterVia_getD_not_mem (t : List Int) (is : List Nat) (u : Nat → Nat) (f : Nat → Int)
    (j : Nat) (h : ∀ i ∈ is, u i ≠ j) :
    (scatterVia t is u f).getD j 0 = t.getD j 0 := by
  induction is generalizing t with
  | nil => rfl
  | cons a is ih =>
    have ha : u a ≠ j := h a (by simp)
    have hstep : scatterVia t (a :: is) u f = scatterVia (t.set (u a) (f a)) is u f := rfl
    rw [hstep, ih (t.set (u a) (f a)) (fun i hi => h i (by simp [hi])),
      getD_set_ne _ _ _ _ ha]

theorem scatterVia_getD_find (t : List Int) (is : List Nat) (u : Nat → Nat) (f : Nat → Int)
    (j : Nat) (hj : j < t.length) (hnd : is.Nodup)
    (hinj : ∀ a ∈ is, ∀ b ∈ is, u a = u b → a = b) :
    (scatterVia t is u f).getD j 0 =
      match is.find? (fun i => u i == j) with
      | some i => f i
      | none => t.getD j 0 := by
  induction is generalizing t with
  | nil => rfl
  | cons a is ih =>
    have hand := hnd
    rw [List.nodup_cons] at hand
    have hstep : scatterVia t (a :: is) u f = scatterVia (t.set (u a) (f a)) is u f := rfl
    by_cases hja : u a = j
    · have hnone : ∀ i ∈ is, u i ≠ j := by
        intro i hi hij
        exact hand.1 (by
          have hia : i = a := hinj i (by simp [hi]) a (by simp) (hij.trans hja.symm)
          simpa [hia] using hi)
      have hfind : List.find? (fun i => u i == j) (a :: is) = some a :=
        List.find?_cons_of_pos _ (by simpa using hja)
      rw [hstep, scatterVia_getD_not_mem _ _ _ _ _ hnone, hfind, hja, getD_set_self,
        if_pos hj]
    · have hfind : List.find? (fun i => u i == j) (a :: is) =
          List.find? (fun i => u i == j) is :=
        List.find?_cons_of_neg _ (by simpa using hja)
      rw [hstep, ih (t.set (u a) (f a)) (by simpa using hj) hand.2
        (fun x hx y hy hxy => hinj x (by simp [hx]) y (by simp [hy]) hxy), hfind]
      cases hfi : List.find? (fun i => u i == j) is with
      | some i => rfl
      | none => rw [getD_set_ne _ _ _ _ hja]

theorem scatterMap_getD (t : List Int) (is : List Nat) (g : Nat → Int) (j : Nat)
    (hj : j < t.length) :
    (scatterMap t is g).getD j 0 = if j ∈ is then g j else t.getD j 0 := by
  induction is generalizing t with
  | nil => simp [scatterMap, scatterVia]
  | cons a is ih =>
    have hstep : scatterMap t (a :: is) g = scatterMap (t.set a (g a)) is g := rfl
    rw [hstep, ih (t.set a (g a)) (by simpa using hj)]
    by_cases hmem : j ∈ is
    · rw [if_pos hmem, if_pos (by simp [hmem])]
    · rw [if_neg hmem]
      by_cases hja : a = j
      · subst hja
        rw [if_pos (by simp), getD_set_self, if_pos hj]
      · have hnc : j ∉ a :: is := by
          intro hc
          rcases List.mem_cons.mp hc with h | h
          · exact hja h.symm
          · exact hmem h
        rw [if_neg hnc, getD_set_ne _ _ _ _ hja]

theorem length_scatter (t : List Int) (us : List Nat) (vs : List Int) :
    (scatter t us vs).length = t.length := by
  induction us generalizing vs t with
  | nil => rfl
  | cons a us ih =>
    cases vs with
    | nil => rfl
    | cons v vs =>
      have hstep : scatter t (a :: us) (v :: vs) = scatter (t.set a v) us vs := rfl
      rw [hstep, ih (t.set a v) vs, List.length_set]

theorem scatter_getD_not_mem (t : List Int) (us : List Nat) (vs : List Int) (j : Nat)
    (h : j ∉ us) :
    (scatter t us vs).getD j 0 = t.getD j 0 := by
  induction us generalizing vs t with
  | nil => rfl
  | cons a us ih =>
    cases vs with
    | nil => rfl
    | cons v vs =>
      have ha : a ≠ j := fun hc => h (by simp [hc])
      have hstep : scatter t (a :: us) (v :: vs) = scatter (t.set a v) us vs := rfl
      rw [hstep, ih (t.set a v) vs (fun hc => h (by simp [hc])), getD_set_ne _ _ _ _ ha]

theorem scatter_getD_nodup_mem (t : List Int) (us : List Nat) (vs : List Int) (j : Nat)
    (v : Int) (hnd : us.Nodup) (hp : (j, v) ∈ us.zip vs) (hj : j < t.length) :
    (scatter t us vs).getD j 0 = v := by
  induction us generalizing vs t with
  | nil => simp at hp
  | cons a us ih =>
    cases vs with
    | nil => simp at hp
    | cons w vs =>
      have hand := hnd
      rw [List.nodup_cons] at hand
      rcases (by simpa using hp : (j = a ∧ v = w) ∨ (j, v) ∈ us.zip vs) with hhead | htail
      · obtain ⟨hja, hvw⟩ := hhead
        subst hja; subst hvw
        have hnotin : j ∉ us := hand.1
        have hstep : scatter t (j :: us) (v :: vs) = scatter (t.set j v) us vs := rfl
        rw [hstep, scatter_getD_not_mem _ _ _ _ hnotin, getD_set_self, if_pos hj]
      · have hstep : scatter t (a :: us) (w :: vs) = scatter (t.set a w) us vs := rfl
        rw [hstep]
        exact ih (t.set a w) vs hand.2 htail (by simpa using hj)

theorem scatter_eq_scatterVia (t : List Int) (is : List Nat) (u : Nat → Nat) (f : Nat → Int) :
    scatter t (is.map u) (is.map f) = scatterVia t is u f := by
  induction is generalizing t with
  | nil => rfl
  | cons a is ih => simpa [scatter, scatterVia] using ih (t.set (u a) (f a))

theorem addVec_length (a b : List Int) (h : a.length = b.length) :
    (addVec a b).length = a.length := by
  simp [addVec, h]

theorem addVec_getD (a b : List Int) (j : Nat) (hab : a.length = b.length)
    (hj : j < a.length) :
    (addVec a b).getD j 0 = a.getD j 0 + b.getD j 0 := by
  induction a generalizing b j with
  | nil => simp at hj
  | cons x a ih =>
    cases b with
    | nil => simp at hab
    | cons y b =>
      cases j with
      | zero => simp [addVec]
      | succ k =>
        have := ih b k (by simpa using hab) (by simpa using hj)
        simpa [addVec] using this

theorem foldl_addVec_length (ls : List (List Int)) (a : List Int) (m : Nat)
    (ha : a.length = m) (hl : ∀ l ∈ ls, l.length = m) :
    (ls.foldl addVec a).length = m := by
  induction ls generalizing a with
  | nil => simpa using ha
  | cons b ls ih =>
    have hb : b.length = m := hl b (by simp)
    exact ih (addVec a b) ((addVec_length a b (ha.trans hb.symm)).trans ha)
      (fun l hli => hl l (by simp [hli]))

theorem foldl_addVec_getD (ls : List (List Int)) (a : List Int) (m j : Nat)
    (ha : a.length = m) (hl : ∀ l ∈ ls, l.length = m) (hj : j < m) :
    (ls.foldl addVec a).getD j 0 = a.getD j 0 + (ls.map (fun l => l.getD j 0)).sum := by
  induction ls generalizing a with
  | nil => simp
  | cons b ls ih =>
    have hb : b.length = m := hl b (by simp)
    have := ih (addVec a b) ((addVec_length a b (ha.trans hb.symm)).trans ha)
      (fun l hli => hl l (by simp [hli]))
    rw [List.foldl_cons, this, addVec_getD a b j (ha.trans hb.symm) (ha ▸ hj)]
    simp [add_assoc]

theorem sumArrays_getD (ls : List (List Int)) (m j : Nat) (hne : ls ≠ [])
    (hl : ∀ l ∈ ls, l.length = m) (hj : j < m) :
    (sumArrays ls).getD j 0 = (ls.map (fun l => l.getD j 0)).sum := by
  cases ls with
  | nil => exact absurd rfl hne
  | cons a rest =>
    have ha : a.length = m := hl a (by simp)
    rw [show sumArrays (a :: rest) = rest.foldl addVec a from rfl,
      foldl_addVec_getD rest a m j ha (fun l hli => hl l (by simp [hli])) hj]
    simp

theorem sumArrays_length (ls : List (List Int)) (m : Nat) (hne : ls ≠ [])
    (hl : ∀ l ∈ ls, l.length = m) :
    (sumArrays ls).length = m := by
  cases ls with
  | nil => exact absurd rfl hne
  | cons a rest =>
    exact foldl_addVec_length rest a m (hl a (by simp)) (fun l hli => hl l (by simp [hli]))

theorem mem_insSorted [LinearOrder α] (v a : α) (l : List α) :
    a ∈ insSorted v l ↔ a = v ∨ a ∈ l := by
  induction l with
  | nil => simp [insSorted]
  | cons x xs ih =>
    by_cases h1 : v < x
    · simp [insSorted, h1]
    · by_cases h2 : v = x
      · subst h2
        simp only [insSorted, if_neg h1, if_pos rfl]
        constructor
        · intro h; exact Or.inr h
        · rintro (h | h)
          · simp [h]
          · exact h
      · simp only [insSorted, if_neg h1, if_neg h2, List.mem_cons, ih]
        tauto

theorem mem_uniqueSorted [LinearOrder α] (a : α) (l : List α) :
    a ∈ uniqueSorted l ↔ a ∈ l := by
  induction l with
  | nil => simp [uniqueSorted]
  | cons x xs ih =>
    rw [show uniqueSorted (x :: xs) = insSorted x (uniqueSorted xs) from rfl,
      mem_insSorted, ih]
    simp

theorem mem_roleMembers (quis : List Int) (r : Int) (i : Nat) :
    i ∈ roleMembers quis r ↔ i < quis.length ∧ quis.getD i 0 = r := by
  simp [roleMembers, List.mem_filter]

theorem nodup_roleMembers (quis : List Int) (r : Int) : (roleMembers quis r).Nodup :=
  (List.nodup_range _).filter _

theorem castVal_idem (d : Dtype) (x : Int) : castVal d (castVal d x) = castVal d x := by
  cases d with
  | bool =>
    by_cases h : x = 0
    · simp [castVal, h]
    · simp [castVal, h]
  | int => rfl
  | float => rfl

theorem mapM_except_ok {α β : Type} (f : α → Except String β) (g : α → β) (l : List α)
    (h : ∀ a ∈ l, f a = .ok (g a)) : l.mapM f = .ok (l.map g) := by
  induction l with
  | nil => rfl
  | cons a t ih =>
    rw [List.mapM_cons, h a (by simp), ih (fun b hb => h b (by simp [hb]))]
    rfl

theorem mapM_loop_except_ok {α β : Type} (f : α → Except String β) (g : α → β) (l : List α)
    (h : ∀ a ∈ l, f a = .ok (g a)) (acc : List β) :
    List.mapM.loop f l acc = .ok (acc.reverse ++ l.map g) := by
  induction l generalizing acc with
  | nil => simp [List.mapM.loop]; rfl
  | cons a t ih =>
    rw [List.mapM.loop, h a (by simp)]
    show List.mapM.loop f t (g a :: acc) = _
    rw [ih (fun b hb => h b (by simp [hb])) (g a :: acc)]
    simp

theorem foldlM_except_ok {α β : Type} (f : β → α → Except String β) (g : β → α → β)
    (l : List α) (h : ∀ b a, a ∈ l → f b a = .ok (g b a)) (init : β) :
    l.foldlM f init = .ok (l.foldl g init) := by
  induction l generalizing init with
  | nil => rfl
  | cons a t ih =>
    rw [List.foldlM_cons, h init a (by simp)]
    exact ih (fun b x hx => h b x (by simp [hx])) (g init a)

theorem dedupKeys_aux (l : List (Int × List Int)) (acc : List (Int × List Int))
    (h : ((acc ++ l).map (fun p => p.1)).Nodup) :
    l.foldl (fun acc p => if acc.any (fun q => q.1 == p.1) then acc else acc ++ [p]) acc =
      acc ++ l := by
  induction l generalizing acc with
  | nil => simp
  | cons p l ih =>
    have hp : ∀ q ∈ acc, ¬(q.1 = p.1) := by
      intro q hq hqp
      have hnd := h
      rw [List.map_append, List.nodup_append] at hnd
      exact hnd.2.2 (List.mem_map_of_mem _ hq)
        (show q.1 ∈ (p :: l).map (fun p => p.1) by simp [hqp])
    have hany : acc.any (fun q => q.1 == p.1) = false := by
      rw [List.any_eq_false]
      intro q hq
      simpa using hp q hq
    rw [List.foldl_cons, hany]
    simp only [Bool.false_eq_true, if_false]
    have := ih (acc ++ [p]) (by simpa using h)
    rw [this]
    simp

theorem dedupKeys_of_nodup (l : List (Int × List Int))
    (h : (l.map (fun p => p.1)).Nodup) : dedupKeys l = l := by
  have := dedupKeys_aux l [] (by simpa using h)
  simpa [dedupKeys] using this

theorem gather_range (l : List Int) : gather l (List.range l.length) = l := by
  apply List.ext_getElem
  · simp [gather]
  · intro j h1 h2
    simp only [gather, List.getElem_map, List.getElem_range]
    rw [List.getD_eq_getElem l 0 h2]

theorem scatter_range (t vs : List Int) (n : Nat) (ht : t.length = n) (hv : vs.length = n) :
    scatter t (List.range n) vs = vs := by
  apply List.ext_getElem
  · rw [length_scatter, ht, hv]
  · intro j h1 h2
    have hjn : j < n := by rwa [length_scatter, ht] at h1
    have hmem : ((j : Nat), vs[j]) ∈ (List.range n).zip vs := by
      rw [List.mem_iff_getElem]
      refine ⟨j, by simp [hv, hjn], ?_⟩
      rw [List.getElem_zip]
      simp
    have := scatter_getD_nodup_mem t (List.range n) vs j vs[j]
      (List.nodup_range n) hmem (by omega)
    rw [List.getD_eq_getElem _ 0 h1] at this
    exact this

theorem foldl_scatterMap_getD (g : Nat → Int) (ms : Int → List Nat) (rs : List Int)
    (t : List Int) (j : Nat) (hj : j < t.length) :
    (rs.foldl (fun acc r => scatterMap acc (ms r) g) t).getD j 0 =
      if ∃ r ∈ rs, j ∈ ms r then g j else t.getD j 0 := by
  induction rs generalizing t with
  | nil => simp
  | cons r rs ih =>
    rw [List.foldl_cons, ih (scatterMap t (ms r) g)
      (by rw [show scatterMap t (ms r) g = scatterVia t (ms r) id g from rfl,
        length_scatterVia]; exact hj)]
    rw [scatterMap_getD t (ms r) g j hj]
    by_cases hrest : ∃ x ∈ rs, j ∈ ms x
    · rw [if_pos hrest, if_pos (by rcases hrest with ⟨x, hx, hjx⟩; exact ⟨x, by simp [hx], hjx⟩)]
    · rw [if_neg hrest]
      by_cases hmem : j ∈ ms r
      · rw [if_pos hmem, if_pos ⟨r, by simp, hmem⟩]
      · rw [if_neg hmem, if_neg]
        rintro ⟨x, hx, hjx⟩
        rcases List.mem_cons.mp hx with h | h
        · exact hmem (h ▸ hjx)
        · exact hrest ⟨x, h, hjx⟩

theorem foldl_scatterMap_length (g : Nat → Int) (ms : Int → List Nat) (rs : List Int)
    (t : List Int) :
    (rs.foldl (fun acc r => scatterMap acc (ms r) g) t).length = t.length := by
  induction rs generalizing t with
  | nil => rfl
  | cons r rs ih =>
    rw [List.foldl_cons, ih (scatterMap t (ms r) g),
      show scatterMap t (ms r) g = scatterVia t (ms r) id g from rfl, length_scatterVia]

/-! ## The role-loop aggregation, pointwise -/

theorem sumRole_core (ids quis opt var : List Int) (init : Int)
    (hnd : opt.Nodup) (hne : opt ≠ [])
    (hinj : ∀ r ∈ opt, ∀ a ∈ roleMembers quis r, ∀ b ∈ roleMembers quis r,
      unitOf ids a = unitOf ids b → a = b)
    (t : Nat) (ht : t < (uniqueSorted ids).length) :
    (sumArrays ((dedupKeys (opt.map (fun r => (r,
        scatter (List.replicate (uniqueSorted ids).length init)
          ((roleMembers quis r).map (unitOf ids)) (gather var (roleMembers quis r)))))).map
      (fun p => p.2))).getD t 0 =
      (opt.map (fun r => roleContrib ids quis var init r t)).sum := by
  set nb := (uniqueSorted ids).length with hnbdef
  set T : Int → List Int := fun r => scatter (List.replicate nb init)
      ((roleMembers quis r).map (unitOf ids)) (gather var (roleMembers quis r)) with hT
  have hdedup : dedupKeys (opt.map fun r => (r, T r)) = opt.map fun r => (r, T r) :=
    dedupKeys_of_nodup _ (by
      rw [List.map_map,
        show ((fun p : Int × List Int => p.1) ∘ fun r => (r, T r)) = (id : Int → Int) from rfl,
        List.map_id]
      exact hnd)
  rw [hdedup, List.map_map]
  have hcomp : ((fun p : Int × List Int => p.2) ∘ fun r => (r, T r)) = T := rfl
  rw [hcomp]
  have hlen : ∀ l ∈ opt.map T, l.length = nb := by
    intro l hl
    rcases List.mem_map.mp hl with ⟨r, _, rfl⟩
    rw [hT]
    exact (length_scatter _ _ _).trans (List.length_replicate _ _)
  have hmapne : opt.map T ≠ [] := by
    intro hc
    exact hne (List.map_eq_nil_iff.mp hc)
  rw [sumArrays_getD (opt.map T) nb t hmapne hlen ht, List.map_map]
  apply congrArg List.sum
  apply List.map_congr_left
  intro r hr
  show (T r).getD t 0 = roleContrib ids quis var init r t
  rw [hT]
  have hg : gather var (roleMembers quis r) =
      (roleMembers quis r).map (fun i => var.getD i 0) := rfl
  show (scatter (List.replicate nb init) ((roleMembers quis r).map (unitOf ids))
      (gather var (roleMembers quis r))).getD t 0 = _
  rw [hg, scatter_eq_scatterVia,
    scatterVia_getD_find _ _ _ _ t (by simpa using ht) (nodup_roleMembers quis r)
      (hinj r hr)]
  unfold roleContrib
  cases hfi : (roleMembers quis r).find? (fun i => unitOf ids i == t) with
  | some i => rfl
  | none => rw [getD_replicate, if_pos ht]

/-- C1 (amended): under aggregation toward a composite target a row with
no member in a requested role contributes the fill value of that role's
array: `0` in the split layout (`np.zeros`), but the column DEFAULT in the
flat layout (`np.ones(nb) * dflt`), so zero only for zero-default
columns. -/
theorem claim_C1_amended
    (dt1 dt3 : DataTable) (v E : String) (col : Column)
    (raw ids quis enumL opt : List Int)
    (h1nt : dt1.numTable = 1) (h1reg : dt1.registry v = some col)
    (hcolent : col.entity = "ind") (h1tab : dt1.table v = some raw)
    (h1idx : dt1.index E = some (mkEntIdx ids quis enumL)) (hE : E ≠ "ind")
    (h3reg : dt3.registry v = some col) (h3nt : dt3.numTable = 3)
    (h3tab : dt3.table3 "ind" v = some raw)
    (h3idx : dt3.index E = some (mkEntIdx ids quis enumL))
    (hopt : ∀ r ∈ opt, r ∈ enumL) (hnd : opt.Nodup) (hne : opt ≠ [])
    (hinj : ∀ r ∈ opt, ∀ a ∈ roleMembers quis r, ∀ b ∈ roleMembers quis r,
      unitOf ids a = unitOf ids b → a = b) :
    (∃ s, getValue dt1 v (some E) (some opt) true = .ok (.arr s) ∧
      ∀ t, t < (uniqueSorted ids).length →
        s.getD t 0 = (opt.map (fun r =>
          roleContrib ids quis (raw.map (castVal col.dtype)) col.dflt r t)).sum) ∧
    (∃ s, getValue dt3 v (some E) (some opt) true = .ok (.arr s) ∧
      ∀ t, t < (uniqueSorted ids).length →
        s.getD t 0 = (opt.map (fun r =>
          roleContrib ids quis (raw.map (castVal col.dtype)) 0 r t)).sum) := by
  have hrole : ∀ p ∈ opt, (mkEntIdx ids quis enumL).role p =
      some ⟨roleMembers quis p,
        (roleMembers quis p).map (fun i => ssorted (uniqueSorted ids) (ids.getD i 0))⟩ := by
    intro p hp
    simp [mkEntIdx, mkEntIdxWith, hopt p hp]
  constructor
  · -- flat layout
    have hmapM : opt.mapM (fun p =>
        match (mkEntIdx ids quis enumL).role p with
        | none => Except.error "KeyError"
        | some ridx =>
          Except.ok (p, scatter (List.replicate (mkEntIdx ids quis enumL).nb col.dflt)
            ridx.idxUnit (gather (raw.map (castVal col.dtype)) ridx.idxIndi))) =
        .ok (opt.map (fun r => (r,
          scatter (List.replicate (mkEntIdx ids quis enumL).nb col.dflt)
            ((roleMembers quis r).map (fun i => ssorted (uniqueSorted ids) (ids.getD i 0)))
            (gather (raw.map (castVal col.dtype)) (roleMembers quis r))))) := by
      apply mapM_except_ok
      intro p hp
      rw [hrole p hp]
    have h1 : getValue1 dt1 v (some E) (some opt) true =
        .ok (.arr (sumArrays ((dedupKeys (opt.map (fun r => (r,
          scatter (List.replicate (mkEntIdx ids quis enumL).nb col.dflt)
            ((roleMembers quis r).map (fun i => ssorted (uniqueSorted ids) (ids.getD i 0)))
            (gather (raw.map (castVal col.dtype)) (roleMembers quis r)))))).map
          (fun p => p.2)))) := by
      simp only [getValue1, h1reg, h1tab, Option.getD_some, if_neg hE, h1idx, hmapM,
        eq_self_iff_true, if_true]
    refine ⟨sumArrays ((dedupKeys (opt.map (fun r => (r,
        scatter (List.replicate (mkEntIdx ids quis enumL).nb col.dflt)
          ((roleMembers quis r).map (fun i => ssorted (uniqueSorted ids) (ids.getD i 0)))
          (gather (raw.map (castVal col.dtype)) (roleMembers quis r)))))).map
        (fun p => p.2)), ?_, ?_⟩
    · simp only [getValue, h1nt, eq_self_iff_true, if_true, h1]
    · intro t ht
      exact sumRole_core ids quis opt (raw.map (castVal col.dtype)) col.dflt hnd hne hinj t ht
  · -- split layout
    have hloop3 : List.mapM.loop (fun p =>
        match (mkEntIdx ids quis enumL).role p with
        | none => Except.error "KeyError"
        | some ridx =>
          Except.ok (p, scatter (List.replicate (mkEntIdx ids quis enumL).nb (0 : Int))
            ridx.idxUnit (gather (raw.map (castVal col.dtype)) ridx.idxIndi))) opt [] =
        .ok (opt.map (fun r => (r,
          scatter (List.replicate (mkEntIdx ids quis enumL).nb (0 : Int))
            ((roleMembers quis r).map (fun i => ssorted (uniqueSorted ids) (ids.getD i 0)))
            (gather (raw.map (castVal col.dtype)) (roleMembers quis r))))) := by
      rw [mapM_loop_except_ok _ (fun r => (r,
          scatter (List.replicate (mkEntIdx ids quis enumL).nb (0 : Int))
            ((roleMembers quis r).map (fun i => ssorted (uniqueSorted ids) (ids.getD i 0)))
            (gather (raw.map (castVal col.dtype)) (roleMembers quis r))))
        opt (fun p hp => by rw [hrole p hp]) []]
      rfl
    have h3 : getValue3 dt3 v (some E) (some opt) true =
        .ok (.arr (sumArrays ((dedupKeys (opt.map (fun r => (r,
          scatter (List.replicate (mkEntIdx ids quis enumL).nb (0 : Int))
            ((roleMembers quis r).map (fun i => ssorted (uniqueSorted ids) (ids.getD i 0)))
            (gather (raw.map (castVal col.dtype)) (roleMembers quis r)))))).map
          (fun p => p.2)))) := by
      simp only [getValue3, h3reg, hcolent, h3tab, h3idx]
      simp [hE, h3idx, hloop3, show ("ind" : String) ≠ "men" from by decide]
    refine ⟨sumArrays ((dedupKeys (opt.map (fun r => (r,
        scatter (List.replicate (mkEntIdx ids quis enumL).nb (0 : Int))
          ((roleMembers quis r).map (fun i => ssorted (uniqueSorted ids) (ids.getD i 0)))
          (gather (raw.map (castVal col.dtype)) (roleMembers quis r)))))).map
        (fun p => p.2)), ?_, ?_⟩
    · have hdisp : getValue dt3 v (some E) (some opt) true =
          getValue3 dt3 v (some E) (some opt) true := by
        simp only [getValue, h3nt]
        rfl
      rw [hdisp, h3]
    · intro t ht
      exact sumRole_core ids quis opt (raw.map (castVal col.dtype)) 0 hnd hne hinj t ht

/-- C1, counterexample to the claim as stated: in the FLAT layout, with
column default 5 and two one-member households (role 1 empty everywhere),
summing roles `[0,1]` yields `[15,25]` — the default contributes for the
absent role — and not the `[10,20]` that a zero contribution would give. -/
theorem claim_C1_counterexample :
    getValue dtC1flat "x" (some "men") (some [0, 1]) true = .ok (.arr [15, 25]) ∧
    getValue dtC1flat "x" (some "men") (some [0, 1]) true ≠ .ok (.arr [10, 20]) := by
  constructor
  · rfl
  · intro h
    rw [show getValue dtC1flat "x" (some "men") (some [0, 1]) true =
      .ok (.arr [15, 25]) from rfl] at h
    simp at h

/-- Witness for C1 (amended), on the two-household population: role
nodup hypothesis plus the instantiated conclusion for both layouts. -/
theorem claim_C1_witness :
    ([(0 : Int), 1]).Nodup ∧
    ((∃ s, getValue dtC1flat "x" (some "men") (some [(0 : Int), 1]) true = .ok (.arr s) ∧
      ∀ t, t < (uniqueSorted [(1 : Int), 2]).length →
        s.getD t 0 = (([(0 : Int), 1]).map (fun r =>
          roleContrib [1, 2] [0, 0] ([10, 20].map (castVal colX.dtype)) colX.dflt r t)).sum) ∧
     (∃ s, getValue dtC1split "x" (some "men") (some [(0 : Int), 1]) true = .ok (.arr s) ∧
      ∀ t, t < (uniqueSorted [(1 : Int), 2]).length →
        s.getD t 0 = (([(0 : Int), 1]).map (fun r =>
          roleContrib [1, 2] [0, 0] ([10, 20].map (castVal colX.dtype)) 0 r t)).sum)) :=
  ⟨by decide,
    claim_C1_amended dtC1flat dtC1split "x" "men" colX [10, 20] [1, 2] [0, 0] [0, 1] [0, 1]
      rfl rfl rfl rfl rfl (by decide) rfl rfl rfl rfl (by decide) (by decide) (by decide)
      (by decide)⟩

/-- C2 (amended): for a leaf-level variable NOT named `ppe_coef`,
`set_value` with entity and role unspecified followed by `get_value` at
leaf level returns exactly the written array after the cast to the
column's declared scalar type, provided the index has been built. -/
theorem claim_C2_amended (dt : DataTable) (v : String) (col : Column)
    (raw value : List Int) (n : Nat)
    (hnt : dt.numTable = 1) (hreg : dt.registry v = some col) (hent : col.entity = "ind")
    (hppe : v ≠ "ppe_coef") (hidx : dt.index "ind" = some (indBase n))
    (htab : dt.table v = some raw) (hraw : raw.length = n) (hval : value.length = n) :
    (setValue dt v value none none).bind
      (fun dt2 => getValue dt2 v none none false) =
      .ok (.arr (value.map (castVal col.dtype))) := by
  have hrole0 : (indBase n).role 0 = some ⟨List.range n, List.range n⟩ := by
    simp [indBase]
  have hgv : gather value (List.range n) = value := by
    rw [← hval]
    exact gather_range value
  have hsc : scatter raw (List.range n) (value.map (castVal col.dtype)) =
      value.map (castVal col.dtype) := scatter_range _ _ n hraw (by simp [hval])
  have hset : setValue dt v value none none =
      .ok { dt with table := fun w =>
        if w = v then some (value.map (castVal col.dtype)) else dt.table w } := by
    simp only [setValue, Option.getD_none, hidx, hrole0, hreg, hnt, htab,
      eq_self_iff_true, if_true]
    rw [hgv, hsc]
  have hbindok : ∀ (x : DataTable) (f : DataTable → Except String GetResult),
      (Except.ok (ε := String) x).bind f = f x := fun _ _ => rfl
  have hidem : (value.map (castVal col.dtype)).map (castVal col.dtype) =
      value.map (castVal col.dtype) := by
    rw [List.map_map]
    exact List.map_congr_left (fun x _ => castVal_idem col.dtype x)
  rw [hset, hbindok]
  simp [getValue, getValue1, hnt, hreg, hppe, hidem]

/-- C2, counterexample to the claim as stated: a LEAF-owned column named
`ppe_coef` is a leaf-level variable, yet the round trip does not return
the written array — the leaf read recurses forever (modelled as the
RuntimeError the Python recursion limit raises). -/
theorem claim_C2_counterexample :
    (setValue dtC2ppe "ppe_coef" [5] none none).bind
      (fun dt2 => getValue dt2 "ppe_coef" none none false) =
      .error "Problem error when getting variable ppe_coef : RuntimeError: maximum recursion depth exceeded" ∧
    (setValue dtC2ppe "ppe_coef" [5] none none).bind
      (fun dt2 => getValue dt2 "ppe_coef" none none false) ≠
      .ok (.arr ([5].map (castVal colLeaf0.dtype))) := by
  constructor
  · rfl
  · intro h
    rw [show (setValue dtC2ppe "ppe_coef" [5] none none).bind
      (fun dt2 => getValue dt2 "ppe_coef" none none false) =
      .error "Problem error when getting variable ppe_coef : RuntimeError: maximum recursion depth exceeded" from rfl] at h
    simp at h

/-- Witness for C2 (amended): writing `[5,6]` over `[7,8]` and reading
back returns `[5,6]`. -/
theorem claim_C2_witness :
    ("y" ≠ "ppe_coef") ∧
    (setValue dtC2w "y" [5, 6] none none).bind
      (fun dt2 => getValue dt2 "y" none none false) =
      .ok (.arr ([5, 6].map (castVal colLeaf0.dtype))) :=
  ⟨by decide,
    claim_C2_amended dtC2w "y" colLeaf0 [7, 8] [5, 6] 2 rfl rfl rfl (by decide) rfl rfl rfl rfl⟩

/-! ## Construction errors (claim C3) -/

theorem mem_missingNames (cols : List (String × Column)) (input : String → Option (List Int))
    (w : String) :
    w ∈ missingNames cols input ↔ (∃ c, (w, c) ∈ cols) ∧ input w = none := by
  simp only [missingNames, List.mem_map, List.mem_filter]
  constructor
  · rintro ⟨p, ⟨hp, hnone⟩, rfl⟩
    exact ⟨⟨p.2, hp⟩, by simpa using hnone⟩
  · rintro ⟨⟨c, hc⟩, hnone⟩
    exact ⟨(w, c), ⟨hc, by simpa using hnone⟩, rfl⟩

theorem checkLinking_clean (missing : List String) (pre rest : List String)
    (hclean : ∀ e ∈ pre, ("id" ++ e) ∉ missing ∧ ("qui" ++ e) ∉ missing) :
    checkLinking missing (pre ++ rest) = checkLinking missing rest := by
  induction pre with
  | nil => rfl
  | cons e pr ih =>
    have h := hclean e (by simp)
    show checkLinking missing (e :: (pr ++ rest)) = _
    simp only [checkLinking]
    rw [if_neg h.1, if_neg h.2]
    exact ih (fun x hx => hclean x (by simp [hx]))

/-- C3: if the input data lacks the linking column `id<E>` (resp.
`qui<E>`) of a composite entity `E` that the registry declares,
construction fails with an error naming that column, and no `DataTable`
(hence no index) is produced.  (`pre` are the entities checked before `E`;
their linking columns are present.) -/
theorem claim_C3 (cols : List (String × Column)) (input : String → Option (List Int))
    (n : Nat) (pre post : List String) (E : String)
    (hclean : ∀ e ∈ pre, ("id" ++ e) ∉ missingNames cols input ∧
      ("qui" ++ e) ∉ missingNames cols input) :
    (("id" ++ E) ∈ missingNames cols input →
      populate1 cols input n (pre ++ E :: post) =
        .error ("Survey data needs variable id" ++ E)) ∧
    (("id" ++ E) ∉ missingNames cols input → ("qui" ++ E) ∈ missingNames cols input →
      populate1 cols input n (pre ++ E :: post) =
        .error ("Survey data needs variable qui" ++ E)) := by
  constructor
  · intro hid
    have hcl : checkLinking (missingNames cols input) (pre ++ E :: post) =
        .error ("Survey data needs variable id" ++ E) := by
      rw [checkLinking_clean _ pre _ hclean]
      simp only [checkLinking]
      rw [if_pos hid]
    simp only [populate1, hcl]
  · intro hid hqui
    have hcl : checkLinking (missingNames cols input) (pre ++ E :: post) =
        .error ("Survey data needs variable qui" ++ E) := by
      rw [checkLinking_clean _ pre _ hclean]
      simp only [checkLinking]
      rw [if_neg hid, if_pos hqui]
    simp only [populate1, hcl]

/-- Witness for C3: a registry declaring `idfoy`/`quifoy` and an input
table lacking `idfoy` make construction fail naming `idfoy`. -/
theorem claim_C3_witness :
    ("id" ++ "foy") ∈ missingNames colsC3 inputC3 ∧
    ((("id" ++ "foy") ∈ missingNames colsC3 inputC3 →
      populate1 colsC3 inputC3 1 ([] ++ "foy" :: []) =
        .error ("Survey data needs variable id" ++ "foy")) ∧
     (("id" ++ "foy") ∉ missingNames colsC3 inputC3 →
      ("qui" ++ "foy") ∈ missingNames colsC3 inputC3 →
      populate1 colsC3 inputC3 1 ([] ++ "foy" :: []) =
        .error ("Survey data needs variable qui" ++ "foy"))) :=
  ⟨by decide, claim_C3 colsC3 inputC3 1 [] [] "foy" (by intro e he; cases he)⟩

/-! ## Split-layout reconciliation (claim C4) -/

/-- C4: in the split layout, when the count of derived identifiers
differs from the entity's own row count, `gen_index` completes without
raising — the mismatch is only printed — and the identifier list actually
used has the SMALLER of the two cardinalities (`nb = min`). -/
theorem claim_C4 (n : Nat) (E : String) (ids quis enumL ownIds : List Int)
    (inp : String → EntityInput)
    (hinp : inp E = ⟨some ids, some quis, some enumL, ownIds⟩) (hE : E ≠ "ind")
    (hneq : (uniqueSorted ids).length ≠ ownIds.length)
    (hnosing : ∀ r ∈ enumL, (roleMembers quis r).length ≠ 1) :
    ∃ idx, genIndexE 3 n [E] inp = .ok idx ∧
      ∃ ee, idx E = some ee ∧ ee.nb = min (uniqueSorted ids).length ownIds.length := by
  have hany : enumL.any (fun r => (roleMembers quis r).length == 1) = false := by
    rw [List.any_eq_false]
    intro r hr
    simpa using hnosing r hr
  have hindE : ¬(("ind" : String) = E) := fun h => hE h.symm
  have hstep : genEntStep 3 (inp E) E (fun w => if w = "ind" then some (indBase n) else none) =
      .ok (setEnt (setEnt (fun w => if w = "ind" then some (indBase n) else none) E
          (mkEntIdxWith (if (uniqueSorted ids).length > ownIds.length then ownIds
            else uniqueSorted ids) ids quis enumL)) "ind"
        { indBase n with cross := fun w =>
            if w = E then some (ids.map (fun vv => ssorted (if (uniqueSorted ids).length >
              ownIds.length then ownIds else uniqueSorted ids) vv))
            else (indBase n).cross w }) := by
    simp only [genEntStep, hinp, hany, setEnt, if_neg hindE, eq_self_iff_true, if_true,
      true_and, Bool.false_eq_true, if_false]
  have hfold : List.foldlM (fun acc e => genEntStep 3 (inp e) e acc)
      (fun w => if w = "ind" then some (indBase n) else none) [E] =
      .ok (setEnt (setEnt (fun w => if w = "ind" then some (indBase n) else none) E
          (mkEntIdxWith (if (uniqueSorted ids).length > ownIds.length then ownIds
            else uniqueSorted ids) ids quis enumL)) "ind"
        { indBase n with cross := fun w =>
            if w = E then some (ids.map (fun vv => ssorted (if (uniqueSorted ids).length >
              ownIds.length then ownIds else uniqueSorted ids) vv))
            else (indBase n).cross w }) := by
    rw [List.foldlM_cons, hstep]
    rfl
  have hgen : genIndexE 3 n [E] inp =
      .ok (setEnt (setEnt (fun w => if w = "ind" then some (indBase n) else none) E
          (mkEntIdxWith (if (uniqueSorted ids).length > ownIds.length then ownIds
            else uniqueSorted ids) ids quis enumL)) "ind"
        { indBase n with cross := fun w =>
            if w = E then some (ids.map (fun vv => ssorted (if (uniqueSorted ids).length >
              ownIds.length then ownIds else uniqueSorted ids) vv))
            else (indBase n).cross w }) := by
    simp only [genIndexE, hfold, eq_self_iff_true, if_true, genCrossE, List.foldlM_cons,
      List.foldlM_nil]
    rw [if_neg (show ¬(E ≠ E) from not_not_intro rfl)]
    rfl
  refine ⟨_, hgen, mkEntIdxWith (if (uniqueSorted ids).length > ownIds.length then ownIds
    else uniqueSorted ids) ids quis enumL, ?_, ?_⟩
  · simp [setEnt, hE]
  · show (mkEntIdxWith (if (uniqueSorted ids).length > ownIds.length then ownIds
      else uniqueSorted ids) ids quis enumL).nb = _
    simp only [mkEntIdxWith]
    by_cases hgt : (uniqueSorted ids).length > ownIds.length
    · rw [if_pos hgt]
      omega
    · rw [if_neg hgt]
      omega

/-- Witness for C4: 4 individuals with 2 derived identifiers against a
1-row entity table — `gen_index` succeeds and `nb = min 2 1 = 1`. -/
theorem claim_C4_witness :
    (uniqueSorted [(1 : Int), 1, 2, 2]).length ≠ ([(5 : Int)]).length ∧
    (∃ idx, genIndexE 3 4 ["foy"] inpC4 = .ok idx ∧
      ∃ ee, idx "foy" = some ee ∧
        ee.nb = min (uniqueSorted [(1 : Int), 1, 2, 2]).length ([(5 : Int)]).length) :=
  ⟨by decide,
    claim_C4 4 "foy" [1, 1, 2, 2] [0, 1, 0, 1] [0, 1] [5] inpC4 rfl (by decide) (by decide)
      (by decide)⟩

/-! ## Cross-entity aggregation (claim C5) -/

/-- C5: for a variable owned by an intermediate composite entity (neither
`ind` nor `men`), reading it at `men` with an explicit role selection and
`sum_ = False` raises (`"Cannot do anything but a sum..."`); with
`sum_ = True` the owner rows are grouped by the cross-entity map
`index[owner]['men']` and summed within each group, the remaining target
rows keeping the column default. -/
theorem claim_C5 (dt : DataTable) (v : String) (col : Column) (raw : List Int)
    (os : List Int) (me de : EntIdx) (idxTo : List Nat)
    (hreg : dt.registry v = some col)
    (hd1 : col.entity ≠ "ind") (hd2 : col.entity ≠ "men")
    (htab : dt.table3 col.entity v = some raw)
    (hmen : dt.index "men" = some me) (hdent : dt.index col.entity = some de)
    (hcross : de.cross "men" = some idxTo) :
    getValue3 dt v (some "men") (some os) false =
      .error "Cannot do anything but a sum from intermediate entity to the biggest one" ∧
    (∃ s, getValue3 dt v (some "men") (some os) true = .ok (.arr s) ∧
      s.length = me.nb ∧
      ∀ t, t < me.nb →
        s.getD t 0 = if t ∈ idxTo then groupSum idxTo (raw.map (castVal col.dtype)) t
          else col.dflt) := by
  constructor
  · simp only [getValue3, hreg, htab]
    simp [hd1, hd2, Ne.symm hd2, hmen, show ("men" : String) ≠ "ind" from by decide]
  · have h2 : getValue3 dt v (some "men") (some os) true =
        .ok (.arr (scatterMap (List.replicate me.nb col.dflt) (uniqueSorted idxTo)
          (groupSum idxTo (raw.map (castVal col.dtype))))) := by
      simp only [getValue3, hreg, htab]
      simp [hd1, hd2, Ne.symm hd2, hmen, hdent, hcross,
        show ("men" : String) ≠ "ind" from by decide]
    refine ⟨_, h2, ?_, ?_⟩
    · rw [show scatterMap (List.replicate me.nb col.dflt) (uniqueSorted idxTo)
          (groupSum idxTo (raw.map (castVal col.dtype))) =
        scatterVia (List.replicate me.nb col.dflt) (uniqueSorted idxTo) id
          (groupSum idxTo (raw.map (castVal col.dtype))) from rfl, length_scatterVia,
        List.length_replicate]
    · intro t ht
      rw [scatterMap_getD _ _ _ t (by simpa using ht)]
      by_cases hmem : t ∈ idxTo
      · rw [if_pos ((mem_uniqueSorted t idxTo).mpr hmem), if_pos hmem]
      · rw [if_neg (fun hc => hmem ((mem_uniqueSorted t idxTo).mp hc)), if_neg hmem,
          getD_replicate, if_pos ht]

/-- Witness for C5 on `dtC5`: the `sum_ = False` read errors; the
`sum_ = True` read groups `[1,2,3]` through `[0,0,1]` into `[3,3,7]`. -/
theorem claim_C5_witness :
    (("foy" : String) ≠ "ind" ∧ ("foy" : String) ≠ "men") ∧
    (getValue3 dtC5 "y" (some "men") (some [0]) false =
      .error "Cannot do anything but a sum from intermediate entity to the biggest one" ∧
    (∃ s, getValue3 dtC5 "y" (some "men") (some [0]) true = .ok (.arr s) ∧
      s.length = meC5.nb ∧
      ∀ t, t < meC5.nb →
        s.getD t 0 = if t ∈ [0, 0, 1] then groupSum [0, 0, 1] ([1, 2, 3].map (castVal colYFoy.dtype)) t
          else colYFoy.dflt)) :=
  ⟨⟨by decide, by decide⟩,
    claim_C5 dtC5 "y" colYFoy [1, 2, 3] [0] meC5 deC5 [0, 0, 1] rfl (by decide) (by decide)
      rfl rfl rfl rfl⟩

/-! ## Default role selection (claim C6) -/

/-- C6: with `opt = None` both `_get_value1` and `set_value` operate on
role 0: the read equals the explicit `opt=[0]` read and is the
default-filled target array overwritten with the role-0 members' values;
the write equals the explicit `opt=0` write and touches exactly the
role-0 individual rows. -/
theorem claim_C6 (dt : DataTable) (v E : String) (col : Column) (raw value : List Int)
    (eidx : EntIdx) (r0 : RoleIdx) (s : Bool)
    (hnt : dt.numTable = 1) (hreg : dt.registry v = some col) (htab : dt.table v = some raw)
    (hidx : dt.index E = some eidx) (hrole0 : eidx.role 0 = some r0) (hE : E ≠ "ind") :
    getValue1 dt v (some E) none s = getValue1 dt v (some E) (some [0]) false ∧
    setValue dt v value (some E) none = setValue dt v value (some E) (some 0) ∧
    (∃ out, getValue1 dt v (some E) none s = .ok (.arr out) ∧ out.length = eidx.nb ∧
      (∀ t, t < eidx.nb → t ∉ r0.idxUnit → out.getD t 0 = col.dflt) ∧
      (r0.idxUnit.Nodup →
        ∀ p ∈ r0.idxUnit.zip (gather (raw.map (castVal col.dtype)) r0.idxIndi),
          p.1 < eidx.nb → out.getD p.1 0 = p.2)) ∧
    (∃ dt2, setValue dt v value (some E) none = .ok dt2 ∧
      (∀ w, w ≠ v → dt2.table w = dt.table w) ∧
      ∃ newcol, dt2.table v = some newcol ∧ newcol.length = raw.length ∧
        (∀ i, i ∉ r0.idxIndi → newcol.getD i 0 = raw.getD i 0) ∧
        (r0.idxIndi.Nodup →
          ∀ p ∈ r0.idxIndi.zip ((gather value r0.idxUnit).map (castVal col.dtype)),
            p.1 < raw.length → newcol.getD p.1 0 = p.2)) := by
  have hL : getValue1 dt v (some E) none s = .ok (.arr (scatter
      (List.replicate eidx.nb col.dflt) r0.idxUnit
      (gather (raw.map (castVal col.dtype)) r0.idxIndi))) := by
    simp only [getValue1, hreg, htab, Option.getD_some, if_neg hE, hidx, hrole0]
  have hR : getValue1 dt v (some E) (some [0]) false = .ok (.arr (scatter
      (List.replicate eidx.nb col.dflt) r0.idxUnit
      (gather (raw.map (castVal col.dtype)) r0.idxIndi))) := by
    simp only [getValue1, hreg, htab, Option.getD_some, if_neg hE, hidx]
    rw [mapM_except_ok _ (fun p => (p, scatter (List.replicate eidx.nb col.dflt) r0.idxUnit
        (gather (raw.map (castVal col.dtype)) r0.idxIndi))) [0]
      (fun p hp => by rcases List.mem_singleton.mp hp with rfl; rw [hrole0])]
    rfl
  have hsetL : setValue dt v value (some E) none =
      .ok (updTable dt v (scatter raw r0.idxIndi
        ((gather value r0.idxUnit).map (castVal col.dtype)))) := by
    simp only [setValue, Option.getD_some, hidx, hrole0, hreg, htab]
    rw [if_pos hnt]
    rfl
  have hsetR : setValue dt v value (some E) (some 0) =
      .ok (updTable dt v (scatter raw r0.idxIndi
        ((gather value r0.idxUnit).map (castVal col.dtype)))) := by
    simp only [setValue, Option.getD_some, hidx, hrole0, hreg, htab]
    rw [if_pos hnt]
    rfl
  have htabs : ∀ c w, (updTable dt v c).table w = if w = v then some c else dt.table w :=
    fun _ _ => rfl
  refine ⟨hL.trans hR.symm, hsetL.trans hsetR.symm,
    ⟨scatter (List.replicate eidx.nb col.dflt) r0.idxUnit
        (gather (raw.map (castVal col.dtype)) r0.idxIndi), hL, ?_, ?_, ?_⟩,
    ⟨updTable dt v (scatter raw r0.idxIndi
        ((gather value r0.idxUnit).map (castVal col.dtype))), hsetL, ?_,
      scatter raw r0.idxIndi ((gather value r0.idxUnit).map (castVal col.dtype)),
      ?_, ?_, ?_, ?_⟩⟩
  · rw [length_scatter, List.length_replicate]
  · intro t ht htu
    rw [scatter_getD_not_mem _ _ _ _ htu, getD_replicate, if_pos ht]
  · intro hndu p hp hplt
    exact scatter_getD_nodup_mem _ _ _ _ _ hndu (by rcases p with ⟨a, b⟩; exact hp)
      (by simpa using hplt)
  · intro w hw
    rw [htabs, if_neg hw]
  · rw [htabs, if_pos rfl]
  · exact length_scatter _ _ _
  · intro i hi
    exact scatter_getD_not_mem _ _ _ _ hi
  · intro hndi p hp hplt
    exact scatter_getD_nodup_mem _ _ _ _ _ hndi (by rcases p with ⟨a, b⟩; exact hp)
      (by simpa using hplt)

/-- Witness for C6 on `dtC6` with written values `[100, 200]`. -/
theorem claim_C6_witness :
    ("foy" : String) ≠ "ind" ∧
    (getValue1 dtC6 "z" (some "foy") none false =
       getValue1 dtC6 "z" (some "foy") (some [0]) false ∧
     setValue dtC6 "z" [100, 200] (some "foy") none =
       setValue dtC6 "z" [100, 200] (some "foy") (some 0) ∧
     (∃ out, getValue1 dtC6 "z" (some "foy") none false = .ok (.arr out) ∧
       out.length = eidxC6.nb ∧
       (∀ t, t < eidxC6.nb → t ∉ ([0, 1] : List Nat) → out.getD t 0 = colX.dflt) ∧
       (([0, 1] : List Nat).Nodup →
         ∀ p ∈ ([0, 1] : List Nat).zip (gather ([10, 20, 30].map (castVal colX.dtype)) [0, 2]),
           p.1 < eidxC6.nb → out.getD p.1 0 = p.2)) ∧
     (∃ dt2, setValue dtC6 "z" [100, 200] (some "foy") none = .ok dt2 ∧
       (∀ w, w ≠ "z" → dt2.table w = dtC6.table w) ∧
       ∃ newcol, dt2.table "z" = some newcol ∧ newcol.length = ([10, 20, 30] : List Int).length ∧
         (∀ i, i ∉ ([0, 2] : List Nat) → newcol.getD i 0 = ([10, 20, 30] : List Int).getD i 0) ∧
         (([0, 2] : List Nat).Nodup →
           ∀ p ∈ ([0, 2] : List Nat).zip ((gather [100, 200] [0, 1]).map (castVal colX.dtype)),
             p.1 < ([10, 20, 30] : List Int).length → newcol.getD p.1 0 = p.2))) :=
  ⟨by decide,
    claim_C6 dtC6 "z" "foy" colX [10, 20, 30] [100, 200] eidxC6 ⟨[0, 2], [0, 1]⟩ false
      rfl rfl rfl rfl rfl (by decide)⟩

/-! ## The concrete scenario (claim C7) -/

/-- C7: on the spec scenario (3 individuals, household ids `[1,1,2]`,
roles `[0,1,0]`, `x = [10,20,30]`, default 0) `gen_index` itself RAISES:
role 1 has exactly one member in the whole table, so
`np.squeeze(np.argwhere(qui == 1))` is a 0-d array and `np.sort` fails
with an axis error.  With the index the role loop is written to build
(`mkEntIdx`), the two reads do return the claimed `[10,30]` and
`[30,30]`. -/
theorem claim_C7 :
    genIndexE 1 3 ["men"] inpC7 =
      .error "AxisError: axis -1 is out of bounds for array of dimension 0" ∧
    getValue dtC7 "x" (some "men") (some [0]) false = .ok (.arr [10, 30]) ∧
    getValue dtC7 "x" (some "men") (some [0, 1]) true = .ok (.arr [30, 30]) :=
  ⟨rfl, rfl, rfl⟩

/-! ## The leaf identity join is installed and never mutated (claim C8) -/

theorem foldlM_inv {α σ : Type} (P : σ → Prop) (f : σ → α → Except String σ) (l : List α)
    (hf : ∀ acc a, a ∈ l → P acc → ∀ acc2, f acc a = .ok acc2 → P acc2) :
    ∀ acc res, P acc → l.foldlM f acc = .ok res → P res := by
  induction l with
  | nil =>
    intro acc res hP h
    rw [List.foldlM_nil] at h
    injection h with h2
    rw [← h2]
    exact hP
  | cons a t ih =>
    intro acc res hP h
    rw [List.foldlM_cons] at h
    cases hfa : f acc a with
    | error s =>
      rw [hfa] at h
      exact absurd h (by simp [Bind.bind, Except.bind])
    | ok acc1 =>
      rw [hfa] at h
      exact ih (fun b x hx => hf b x (by simp [hx])) acc1 res
        (hf acc a (by simp) hP acc1 hfa) h

theorem genEntStep_ind_inv (nt : Nat) (inp : EntityInput) (e : String) (he : e ≠ "ind")
    (n : Nat) (idx idx2 : Index)
    (hP : ∃ c, idx "ind" = some ⟨n, (indBase n).role, c⟩)
    (h : genEntStep nt inp e idx = .ok idx2) :
    ∃ c, idx2 "ind" = some ⟨n, (indBase n).role, c⟩ := by
  rcases hP with ⟨c, hc⟩
  have hinde : ¬(("ind" : String) = e) := fun hh => he hh.symm
  unfold genEntStep at h
  cases hqe : inp.quiEnum with
  | none => rw [hqe] at h; cases h
  | some enumL =>
  cases hids : inp.ids with
  | none => rw [hqe, hids] at h; cases h
  | some ids =>
  cases hquis : inp.quis with
  | none => rw [hqe, hids, hquis] at h; cases h
  | some quis =>
  rw [hqe, hids, hquis] at h
  simp only at h
  split at h
  · cases h
  · have h1 : setEnt idx e (mkEntIdxWith (if nt = 3 ∧ (uniqueSorted ids).length >
        inp.ownIds.length then inp.ownIds else uniqueSorted ids) ids quis enumL) "ind" =
        some ⟨n, (indBase n).role, c⟩ := by
      rw [setEnt, if_neg hinde]
      exact hc
    split at h
    · rw [h1] at h
      injection h with h2
      rw [← h2]
      simp only [setEnt, eq_self_iff_true, if_true]
      exact ⟨_, rfl⟩
    · injection h with h2
      rw [← h2]
      exact ⟨c, h1⟩

theorem genCrossE_ind_inv (ents : List String) (hind : "ind" ∉ ents) (idx idx2 : Index)
    (h : genCrossE ents idx = .ok idx2) : idx2 "ind" = idx "ind" := by
  have inner : ∀ e, e ∈ ents → ∀ (acc : Index) (acc2 : Index),
      (ents.foldlM (fun acc2 s =>
        if s ≠ e then
          match acc2 e with
          | none => Except.error "KeyError"
          | some ee =>
            match ee.role 0 with
            | none => Except.error "KeyError"
            | some r0 =>
              match acc2 "ind" with
              | none => Except.error "KeyError"
              | some ii =>
                match ii.cross s with
                | none => Except.error "KeyError"
                | some cs =>
                  Except.ok (setEnt acc2 e
                    { ee with cross := fun w =>
                        if w = s then some (gatherN cs r0.idxIndi) else ee.cross w })
        else Except.ok acc2) acc) = .ok acc2 → acc2 "ind" = acc "ind" := by
    intro e hee acc acc2 hfold
    have hinde : ¬(("ind" : String) = e) := fun hh => hind (hh ▸ hee)
    refine foldlM_inv (fun j => j "ind" = acc "ind") _ ents ?_ acc acc2 rfl hfold
    intro b s _ hPb b2 hstep
    split at hstep
    · split at hstep
      · cases hstep
      · split at hstep
        · cases hstep
        · split at hstep
          · cases hstep
          · split at hstep
            · cases hstep
            · injection hstep with h2
              rw [← h2, setEnt, if_neg hinde]
              exact hPb
    · injection hstep with h2
      rw [← h2]
      exact hPb
  exact foldlM_inv (fun j => j "ind" = idx "ind") _ ents
    (fun acc e hee hPacc acc2 hstep => (inner e hee acc acc2 hstep).trans hPacc)
    idx idx2 rfl h

theorem setValue_index (dt dt2 : DataTable) (v : String) (value : List Int)
    (e? : Option String) (o? : Option Int) (h : setValue dt v value e? o? = .ok dt2) :
    dt2.index = dt.index := by
  simp only [setValue] at h
  cases hidx : dt.index (e?.getD "ind") with
  | none =>
    simp only [hidx] at h
    exact absurd h (by simp)
  | some eidx =>
    simp only [hidx] at h
    cases hr : (match o? with | none => eidx.role 0 | some o => eidx.role o) with
    | none =>
      simp only [hr] at h
      exact absurd h (by simp)
    | some ridx =>
      simp only [hr] at h
      cases hreg : dt.registry v with
      | none =>
        simp only [hreg] at h
        exact absurd h (by simp)
      | some col =>
        simp only [hreg] at h
        split at h
        · cases htab : dt.table v with
          | none =>
            simp only [htab] at h
            exact absurd h (by simp)
          | some oldcol =>
            simp only [htab] at h
            injection h with h2
            rw [← h2]
        · cases htab3 : dt.table3 (e?.getD "ind") v with
          | none =>
            simp only [htab3] at h
            exact absurd h (by simp)
          | some oldcol =>
            simp only [htab3] at h
            injection h with h2
            rw [← h2]

/-- C8: a successful `gen_index` leaves `index['ind']` as the identity
join of size `nrows` (`nb = n`, role 0 maps rows `0..n-1` to
`0..n-1`), and neither `set_value` nor `inflate` ever touches the
index. -/
theorem claim_C8 (nt n : Nat) (ents : List String) (inp : String → EntityInput) (idx : Index)
    (hind : "ind" ∉ ents) (hgen : genIndexE nt n ents inp = .ok idx)
    (dt dt2 : DataTable) (v : String) (value : List Int) (e? : Option String)
    (o? : Option Int) (hset : setValue dt v value e? o? = .ok dt2) (v2 : String) (k : Int) :
    (∃ ii, idx "ind" = some ii ∧ ii.nb = n ∧
      ii.role 0 = some ⟨List.range n, List.range n⟩) ∧
    dt2.index = dt.index ∧ (inflate dt v2 k).index = dt.index := by
  refine ⟨?_, setValue_index dt dt2 v value e? o? hset, rfl⟩
  simp only [genIndexE] at hgen
  cases hfold : List.foldlM (fun acc e => genEntStep nt (inp e) e acc)
      (fun w => if w = "ind" then some (indBase n) else none) ents with
  | error s =>
    simp only [hfold] at hgen
    exact absurd hgen (by simp)
  | ok idx1 =>
    simp only [hfold] at hgen
    have hP1 : ∃ c, idx1 "ind" = some ⟨n, (indBase n).role, c⟩ := by
      refine foldlM_inv (fun j => ∃ c, j "ind" = some ⟨n, (indBase n).role, c⟩) _ ents
        ?_ _ idx1 ⟨(indBase n).cross, rfl⟩ hfold
      intro acc e hee hPacc acc2 hstep
      exact genEntStep_ind_inv nt (inp e) e (fun hh => hind (hh ▸ hee)) n acc acc2 hPacc hstep
    have hPidx : ∃ c, idx "ind" = some ⟨n, (indBase n).role, c⟩ := by
      split at hgen
      · rcases hP1 with ⟨c, hc⟩
        exact ⟨c, (genCrossE_ind_inv ents hind idx1 idx hgen).trans hc⟩
      · injection hgen with h2
        rw [← h2]
        exact hP1
    rcases hPidx with ⟨c, hc⟩
    refine ⟨⟨n, (indBase n).role, c⟩, hc, rfl, ?_⟩
    show (indBase n).role 0 = _
    rw [indBase]
    simp

/-- Witness for C8: `gen_index` on `inpC8` produces `idxC8` whose leaf
entry is the identity join of size 2; a leaf write and an inflate leave
the index of `dtC2w` unchanged. -/
theorem claim_C8_witness :
    ("ind" ∉ (["foy"] : List String)) ∧
    ((∃ ii, idxC8 "ind" = some ii ∧ ii.nb = 2 ∧
       ii.role 0 = some ⟨List.range 2, List.range 2⟩) ∧
     (updTable dtC2w "y" [1, 2]).index = dtC2w.index ∧
     (inflate dtC2w "y" 3).index = dtC2w.index) :=
  ⟨by decide,
    claim_C8 1 2 ["foy"] inpC8 idxC8 (by decide) rfl dtC2w (updTable dtC2w "y" [1, 2]) "y"
      [1, 2] none none rfl "y" 3⟩

/-! ## `inflate` (claim C10) -/

/-- C10: `inflate` replaces the named column by its elementwise product
with the inflator and leaves every other column, the row count, the index
and all remaining state unchanged. -/
theorem claim_C10 (dt : DataTable) (v : String) (k : Int) (c : List Int)
    (h : dt.table v = some c) :
    (inflate dt v k).table v = some (c.map (fun x => k * x)) ∧
    (∀ w, w ≠ v → (inflate dt v k).table w = dt.table w) ∧
    ((inflate dt v k).table v).map List.length = some c.length ∧
    (inflate dt v k).index = dt.index ∧
    (inflate dt v k).numTable = dt.numTable ∧
    (inflate dt v k).nrows = dt.nrows ∧
    (inflate dt v k).registry = dt.registry ∧
    (inflate dt v k).table3 = dt.table3 := by
  have htv : (inflate dt v k).table v = some (c.map (fun x => k * x)) := by
    show (if v = v then (dt.table v).map (fun l => l.map (fun x => k * x))
      else dt.table v) = _
    rw [if_pos rfl, h]
    rfl
  refine ⟨htv, ?_, ?_, rfl, rfl, rfl, rfl, rfl⟩
  · intro w hw
    show (if w = v then (dt.table v).map (fun l => l.map (fun x => k * x))
      else dt.table w) = dt.table w
    rw [if_neg hw]
  · rw [htv]
    simp

/-- Witness for C10: inflating `z = [10,20,30]` by 3 gives `[30,60,90]`
and touches nothing else. -/
theorem claim_C10_witness :
    dtC6.table "z" = some [10, 20, 30] ∧
    ((inflate dtC6 "z" 3).table "z" = some ([10, 20, 30].map (fun x => (3 : Int) * x)) ∧
     (∀ w, w ≠ "z" → (inflate dtC6 "z" 3).table w = dtC6.table w) ∧
     ((inflate dtC6 "z" 3).table "z").map List.length = some ([10, 20, 30] : List Int).length ∧
     (inflate dtC6 "z" 3).index = dtC6.index ∧
     (inflate dtC6 "z" 3).numTable = dtC6.numTable ∧
     (inflate dtC6 "z" 3).nrows = dtC6.nrows ∧
     (inflate dtC6 "z" 3).registry = dtC6.registry ∧
     (inflate dtC6 "z" 3).table3 = dtC6.table3) :=
  ⟨rfl, claim_C10 dtC6 "z" 3 [10, 20, 30] rfl⟩

/-! ## The hardcoded `ppe_coef` leaf read (claim C9) -/

theorem scatter_map_self (t : List Int) (is : List Nat) (g : Nat → Int) :
    scatter t is (is.map g) = scatterMap t is g := by
  have h1 : is.map (id : Nat → Nat) = is := List.map_id is
  calc scatter t is (is.map g) = scatter t (is.map id) (is.map g) := by rw [h1]
    _ = scatterVia t is id g := scatter_eq_scatterVia t is id g

/-- C9: in the flat layout, a leaf read (`entity` omitted) returns the
raw stored column cast to the declared dtype for every variable except
one literally named `ppe_coef`; for that one name it instead returns the
owner entity's value (the role-0 composite read) broadcast back onto
every member row role by role. -/
theorem claim_C9 (dt : DataTable) (col qcol colv : Column)
    (raw ids quis enumL rawv : List Int) (n : Nat) (ent v : String)
    (hreg : dt.registry "ppe_coef" = some col) (hent : col.entity = ent)
    (hind : ent ≠ "ind") (htab : dt.table "ppe_coef" = some raw)
    (hrawlen : raw.length = n) (hquislen : quis.length = n)
    (hqreg : dt.registry ("qui" ++ ent) = some qcol) (hqenum : qcol.enum = some enumL)
    (hidx : dt.index ent = some (mkEntIdx ids quis enumL)) (h0 : (0 : Int) ∈ enumL)
    (hcover : ∀ i, i < n → quis.getD i 0 ∈ enumL)
    (hv : v ≠ "ppe_coef") (hregv : dt.registry v = some colv)
    (htabv : dt.table v = some rawv) :
    getValue1 dt v none none false = .ok (.arr (rawv.map (castVal colv.dtype))) ∧
    (∃ ownerVal bc, getValue1 dt "ppe_coef" (some ent) none false = .ok (.arr ownerVal) ∧
      getValue1 dt "ppe_coef" none none false = .ok (.arr bc) ∧
      bc.length = n ∧
      ∀ i, i < n → bc.getD i 0 = ownerVal.getD (unitOf ids i) 0) := by
  have hrole0 : (mkEntIdx ids quis enumL).role 0 =
      some ⟨roleMembers quis 0,
        (roleMembers quis 0).map (fun i => ssorted (uniqueSorted ids) (ids.getD i 0))⟩ := by
    simp [mkEntIdx, mkEntIdxWith, h0]
  have hrole : ∀ r ∈ enumL, (mkEntIdx ids quis enumL).role r =
      some ⟨roleMembers quis r,
        (roleMembers quis r).map (fun i => ssorted (uniqueSorted ids) (ids.getD i 0))⟩ := by
    intro r hr
    simp [mkEntIdx, mkEntIdxWith, hr]
  constructor
  · simp only [getValue1, hregv, htabv, Option.getD_none, eq_self_iff_true, if_true]
    rw [if_pos hv]
  · set value := scatter (List.replicate (mkEntIdx ids quis enumL).nb col.dflt)
      ((roleMembers quis 0).map (fun i => ssorted (uniqueSorted ids) (ids.getD i 0)))
      (gather (raw.map (castVal col.dtype)) (roleMembers quis 0)) with hvalue
    have hOwner : getValue1 dt "ppe_coef" (some ent) none false = .ok (.arr value) := by
      simp only [getValue1, hreg, hent, htab, Option.getD_some, if_neg hind, hidx, hrole0]
    have hfoldM : enumL.foldlM (fun acc r =>
        match (mkEntIdx ids quis enumL).role r with
        | none => Except.error "KeyError"
        | some ridx => Except.ok (scatter acc ridx.idxIndi (gather value ridx.idxUnit)))
        (raw.map (castVal col.dtype)) =
        .ok (enumL.foldl (fun acc r => scatter acc (roleMembers quis r)
          (gather value ((roleMembers quis r).map
            (fun i => ssorted (uniqueSorted ids) (ids.getD i 0)))))
          (raw.map (castVal col.dtype))) := by
      apply foldlM_except_ok
      intro b r hr
      rw [hrole r hr]
    have hBC : getValue1 dt "ppe_coef" none none false =
        .ok (.arr (enumL.foldl (fun acc r => scatter acc (roleMembers quis r)
          (gather value ((roleMembers quis r).map
            (fun i => ssorted (uniqueSorted ids) (ids.getD i 0)))))
          (raw.map (castVal col.dtype)))) := by
      simp only [getValue1, hreg, hent, htab, Option.getD_none, eq_self_iff_true, if_true,
        if_neg hind, hidx, hrole0, hqreg, hqenum, hfoldM]
      rw [if_neg (show ¬(("ppe_coef" : String) ≠ "ppe_coef") from not_not_intro rfl)]
    have hfun : (fun (acc : List Int) (r : Int) => scatter acc (roleMembers quis r)
        (gather value ((roleMembers quis r).map
          (fun i => ssorted (uniqueSorted ids) (ids.getD i 0))))) =
        (fun acc r => scatterMap acc (roleMembers quis r)
          (fun j => value.getD (ssorted (uniqueSorted ids) (ids.getD j 0)) 0)) := by
      funext acc r
      rw [show gather value ((roleMembers quis r).map
          (fun i => ssorted (uniqueSorted ids) (ids.getD i 0))) =
        ((roleMembers quis r).map
          (fun i => ssorted (uniqueSorted ids) (ids.getD i 0))).map
          (fun i => value.getD i 0) from rfl, List.map_map, scatter_map_self]
      rfl
    refine ⟨value, _, hOwner, hBC, ?_, ?_⟩
    · rw [hfun, foldl_scatterMap_length, List.length_map, hrawlen]
    · intro i hi
      have hcond : ∃ r ∈ enumL, i ∈ roleMembers quis r :=
        ⟨quis.getD i 0, hcover i hi,
          (mem_roleMembers quis (quis.getD i 0) i).mpr ⟨by rw [hquislen]; exact hi, rfl⟩⟩
      rw [hfun, foldl_scatterMap_getD _ _ _ _ i (by rw [List.length_map, hrawlen]; exact hi),
        if_pos hcond]
      rfl

/-- Witness for C9 on `dtC9`: the leaf read of `w` is the raw column;
the leaf read of `ppe_coef` broadcasts the `foy` value to all 4 rows. -/
theorem claim_C9_witness :
    ("w" : String) ≠ "ppe_coef" ∧
    (getValue1 dtC9 "w" none none false =
      .ok (.arr ([7, 7, 7, 7].map (castVal colLeaf0.dtype))) ∧
    (∃ ownerVal bc, getValue1 dtC9 "ppe_coef" (some "foy") none false = .ok (.arr ownerVal) ∧
      getValue1 dtC9 "ppe_coef" none none false = .ok (.arr bc) ∧
      bc.length = 4 ∧
      ∀ i, i < 4 → bc.getD i 0 = ownerVal.getD (unitOf [1, 1, 2, 2] i) 0)) :=
  ⟨by decide,
    claim_C9 dtC9 colPpeFoy colQuiFoy9 colLeaf0 [10, 20, 30, 40] [1, 1, 2, 2] [0, 1, 0, 1]
      [0, 1] [7, 7, 7, 7] 4 "foy" "w" rfl rfl (by decide) rfl rfl rfl rfl rfl rfl
      (by decide) (by decide) (by decide) rfl rfl⟩

end OFC
